import Mathlib

/-!
Verification of the Auto_Net_Tool core pipeline (device classification,
configuration extraction, topology inference).

The Python sources `device.py`, `router_parser.py`, `switch_parser.py` and
`topology.py` are shallowly embedded below.  Regular-expression scans are
translated pattern by pattern into executable character-list functions that
reproduce `re.search` / `re.findall` behaviour (case flags, DOTALL lookaheads,
lazy repetition with backtracking, non-overlapping findall scanning).
-/

namespace AutoNet

abbrev Chars := List Char

/-- ASCII lower-casing, mirroring `str.lower` on the ASCII configuration text
(`re.IGNORECASE` likewise compares ASCII letters case-insensitively). -/
def lowerC (c : Char) : Char :=
  if 'A' ≤ c ∧ c ≤ 'Z' then Char.ofNat (c.toNat + 32) else c

/-- Python `\s` on ASCII text: space, tab, newline, carriage return,
vertical tab, form feed. -/
def isSpaceC (c : Char) : Bool :=
  c = ' ' || c = '\t' || c = '\n' || c = '\r' ||
  c = Char.ofNat 11 || c = Char.ofNat 12

/-- Python `\d` on ASCII text. -/
def isDigitC (c : Char) : Bool := '0' ≤ c && c ≤ '9'

/-- Case-insensitive character comparison used by `re.IGNORECASE`. -/
def eqCI (a b : Char) : Bool := lowerC a == lowerC b

def lowerStr (s : String) : String := ⟨s.data.map lowerC⟩

/-- Python substring test `pat in hay` (case-sensitive). -/
def containsSub (hay pat : Chars) : Bool :=
  pat.isPrefixOf hay ||
    match hay with
    | [] => false
    | _ :: t => containsSub t pat

/-- `str.strip()`: remove leading and trailing whitespace. -/
def stripC (l : Chars) : Chars :=
  ((l.dropWhile isSpaceC).reverse.dropWhile isSpaceC).reverse

def asStr (l : Chars) : String := ⟨l⟩

/-- Match a literal pattern case-sensitively; return `(consumed, rest)`. -/
def litCS : Chars → Chars → Option (Chars × Chars)
  | [], l => some ([], l)
  | _ :: _, [] => none
  | p :: ps, c :: cs =>
    if p == c then (litCS ps cs).map (fun r => (c :: r.1, r.2)) else none

/-- Match a literal pattern case-insensitively; return `(consumed, rest)`,
where `consumed` keeps the original characters (as `re` groups do). -/
def litCI : Chars → Chars → Option (Chars × Chars)
  | [], l => some ([], l)
  | _ :: _, [] => none
  | p :: ps, c :: cs =>
    if eqCI p c then (litCI ps cs).map (fun r => (c :: r.1, r.2)) else none

/-- Split off the maximal run of characters satisfying `p`. -/
def takeRun (p : Char → Bool) : Chars → Chars × Chars
  | [] => ([], [])
  | c :: cs =>
    if p c then
      let r := takeRun p cs
      (c :: r.1, r.2)
    else ([], c :: cs)

/-- `\s+` (greedy, maximal): requires at least one whitespace character. -/
def spaces1 (l : Chars) : Option (Chars × Chars) :=
  let r := takeRun isSpaceC l
  if r.1.isEmpty then none else some r

/-- `(\S+)` (greedy, maximal): requires at least one non-whitespace char. -/
def nonspace1 (l : Chars) : Option (Chars × Chars) :=
  let r := takeRun (fun c => !isSpaceC c) l
  if r.1.isEmpty then none else some r

/-- `(\d+)` (greedy, maximal). -/
def digits1 (l : Chars) : Option (Chars × Chars) :=
  let r := takeRun isDigitC l
  if r.1.isEmpty then none else some r

/-- `(\d+\.\d+\.\d+\.\d+)` — a dotted-quad capture.  Each `\d+` is a maximal
digit run, so matching at a fixed position is deterministic. -/
def quad (l : Chars) : Option (Chars × Chars) := do
  let (d1, r1) ← digits1 l
  let (_, r2) ← litCS ['.'] r1
  let (d2, r3) ← digits1 r2
  let (_, r4) ← litCS ['.'] r3
  let (d3, r5) ← digits1 r4
  let (_, r6) ← litCS ['.'] r5
  let (d4, r7) ← digits1 r6
  some (d1 ++ '.' :: d2 ++ '.' :: d3 ++ '.' :: d4, r7)

/-- `re.search`: try the matcher at each position, leftmost first. -/
def searchC (m : Chars → Option α) : Chars → Option α
  | [] => m []
  | c :: r =>
    match m (c :: r) with
    | some a => some a
    | none => searchC m r

/-- `re.findall` worker: non-overlapping matches, scanning left to right and
resuming at each match end.  `fuel` bounds the recursion; it is instantiated
with `l.length + 1`, enough since every match here consumes at least one
character. -/
def findAllF (m : Chars → Option (α × Chars)) : Nat → Chars → List α
  | 0, _ => []
  | fuel + 1, l =>
    match m l with
    | some (a, rest) => a :: findAllF m fuel rest
    | none =>
      match l with
      | [] => []
      | _ :: r => findAllF m fuel r

def findAll (m : Chars → Option (α × Chars)) (l : Chars) : List α :=
  findAllF m (l.length + 1) l

/-- `.*?(?=look)` (DOTALL): consume the least number of characters (possibly
zero) until the lookahead holds; return `(consumed, rest-at-lookahead)`. -/
def lazyUntil (look : Chars → Bool) : Chars → Option (Chars × Chars)
  | [] => if look [] then some ([], []) else none
  | c :: r =>
    if look (c :: r) then some ([], c :: r)
    else (lazyUntil look r).map (fun p => (c :: p.1, p.2))

/-- `.+?(?=look)` (DOTALL): like `lazyUntil` but consuming at least one. -/
def lazy1Until (look : Chars → Bool) : Chars → Option (Chars × Chars)
  | [] => none
  | c :: r => (lazyUntil look r).map (fun p => (c :: p.1, p.2))

/-- Backtracking of a greedy character-class run followed by a lazy tail:
`run` is the maximal run, `after` the text past it.  Python tries the longest
run first, shortening it one character at a time; for each length the lazy
tail finds the earliest lookahead position.  Returns
`(taken-run-part, lazy-part, rest-at-lookahead)`. -/
def btLazy (lazy : Chars → Option (Chars × Chars)) (run after : Chars) :
    Nat → Option (Chars × Chars × Chars)
  | 0 => none
  | k + 1 =>
    match lazy (run.drop (k + 1) ++ after) with
    | some (sp, q) => some (run.take (k + 1), sp, q)
    | none => btLazy lazy run after k

/-! Lookahead predicates.  Without `re.MULTILINE`, `$` matches at the end of
the text or just before a final newline. -/

/-- `$` (no MULTILINE): end of input, or just before a trailing newline. -/
def atDollar : Chars → Bool
  | [] => true
  | ['\n'] => true
  | _ => false

/-- `\s*$`: some (possibly empty) whitespace followed by `$`. -/
def spacesThenDollar : Chars → Bool
  | [] => true
  | c :: r => atDollar (c :: r) || (isSpaceC c && spacesThenDollar r)

/-- Lookahead alternative `!\s*$`. -/
def lookBang : Chars → Bool
  | '!' :: r => spacesThenDollar r
  | _ => false

/-- Lookahead alternative `\ninterface\s+\S+` (`re.IGNORECASE`). -/
def lookNlInterface : Chars → Bool
  | '\n' :: r =>
    (do
      let (_, r1) ← litCI "interface".data r
      let (_, r2) ← spaces1 r1
      let (_, _) ← nonspace1 r2
      some ()).isSome
  | _ => false

/-- Lookahead alternative `\nend` (`re.IGNORECASE`). -/
def lookNlEnd : Chars → Bool
  | '\n' :: r => (litCI "end".data r).isSome
  | _ => false

/-- Lookahead of the router interface-block regex:
`(?=!\s*$|\ninterface\s+\S+|\nend)`. -/
def lookIntfEnd (l : Chars) : Bool :=
  lookBang l || lookNlInterface l || lookNlEnd l

/-- Lookahead alternative `\nrouter\s+\S+` (`re.IGNORECASE`). -/
def lookNlRouter : Chars → Bool
  | '\n' :: r =>
    (do
      let (_, r1) ← litCI "router".data r
      let (_, r2) ← spaces1 r1
      let (_, _) ← nonspace1 r2
      some ()).isSome
  | _ => false

/-- Lookahead of the OSPF/BGP block regexes: `(?=!\s*$|\nrouter\s+\S+)`. -/
def lookRouterEnd (l : Chars) : Bool := lookBang l || lookNlRouter l

/-- Lookahead of the router description regex: `(?=\n\S|\n\n|$)`. -/
def lookDescEnd (l : Chars) : Bool :=
  atDollar l ||
    match l with
    | '\n' :: c :: _ => !isSpaceC c || c == '\n'
    | _ => false

/-! Matchers for the individual regular expressions of `router_parser.py`. -/

/-- `hostname\s+(\S+)` (IGNORECASE); yields the captured token. -/
def matchHostnameCI (l : Chars) : Option Chars := do
  let (_, r1) ← litCI "hostname".data l
  let (_, r2) ← spaces1 r1
  let (tok, _) ← nonspace1 r2
  some tok

/-- `(\d{4})\s+(?:router|series)` (IGNORECASE); yields the four digits. -/
def matchModel (l : Chars) : Option Chars := do
  match l with
  | c1 :: c2 :: c3 :: c4 :: r =>
    if isDigitC c1 && isDigitC c2 && isDigitC c3 && isDigitC c4 then do
      let (_, r1) ← spaces1 r
      match litCI "router".data r1 with
      | some _ => some [c1, c2, c3, c4]
      | none => do
        let _ ← litCI "series".data r1
        some [c1, c2, c3, c4]
    else none
  | _ => none

/-- One candidate of the router interface-block findall
`(interface\s+\S+.*?(?=!\s*$|\ninterface\s+\S+|\nend))`
(DOTALL, IGNORECASE); yields `(block, rest-at-match-end)`. -/
def matchIntfBlockR (l : Chars) : Option (Chars × Chars) := do
  let (c1, r1) ← litCI "interface".data l
  let (sps, r2) ← spaces1 r1
  let (run, after) := takeRun (fun c => !isSpaceC c) r2
  if run.isEmpty then none
  else do
    let (taken, sp, q) ← btLazy (lazyUntil lookIntfEnd) run after run.length
    some (c1 ++ sps ++ taken ++ sp, q)

/-- `interface\s+(\S+)` (IGNORECASE); yields the interface name. -/
def matchIntfName (l : Chars) : Option Chars := do
  let (_, r1) ← litCI "interface".data l
  let (_, r2) ← spaces1 r1
  let (nm, _) ← nonspace1 r2
  some nm

/-- `description\s+(.+?)(?=\n\S|\n\n|$)` (DOTALL, IGNORECASE); yields the
captured (unstripped) description text. -/
def matchDescR (l : Chars) : Option Chars := do
  let (_, r1) ← litCI "description".data l
  let (run, after) := takeRun isSpaceC r1
  if run.isEmpty then none
  else do
    let (_, sp, _) ← btLazy (lazy1Until lookDescEnd) run after run.length
    some sp

/-- `ip\s+address\s+(\d+\.\d+\.\d+\.\d+)\s+(\d+\.\d+\.\d+\.\d+)` (IGNORECASE). -/
def matchIpAddr (l : Chars) : Option (Chars × Chars) := do
  let (_, r1) ← litCI "ip".data l
  let (_, r2) ← spaces1 r1
  let (_, r3) ← litCI "address".data r2
  let (_, r4) ← spaces1 r3
  let (q1, r5) ← quad r4
  let (_, r6) ← spaces1 r5
  let (q2, _) ← quad r6
  some (q1, q2)

/-- `ip\s+address\s+(quad)\s+(quad)\s+secondary` (IGNORECASE). -/
def matchSecIp (l : Chars) : Option (Chars × Chars) := do
  let (_, r1) ← litCI "ip".data l
  let (_, r2) ← spaces1 r1
  let (_, r3) ← litCI "address".data r2
  let (_, r4) ← spaces1 r3
  let (q1, r5) ← quad r4
  let (_, r6) ← spaces1 r5
  let (q2, r7) ← quad r6
  let (_, r8) ← spaces1 r7
  let _ ← litCI "secondary".data r8
  some (q1, q2)

/-- `bandwidth\s+(\d+)` (IGNORECASE). -/
def matchBandwidth (l : Chars) : Option Chars := do
  let (_, r1) ← litCI "bandwidth".data l
  let (_, r2) ← spaces1 r1
  let (d, _) ← digits1 r2
  some d

/-- `duplex\s+(\S+)` (IGNORECASE). -/
def matchDuplex (l : Chars) : Option Chars := do
  let (_, r1) ← litCI "duplex".data l
  let (_, r2) ← spaces1 r1
  let (d, _) ← nonspace1 r2
  some d

/-- `speed\s+(\d+)` (IGNORECASE). -/
def matchSpeed (l : Chars) : Option Chars := do
  let (_, r1) ← litCI "speed".data l
  let (_, r2) ← spaces1 r1
  let (d, _) ← digits1 r2
  some d

/-- One candidate of `router\s+ospf\s+(\d+).*?(?=!\s*$|\nrouter\s+\S+)`
(DOTALL, IGNORECASE).  Because the pattern contains one capture group,
`re.findall` yields only the captured process-id digits. -/
def matchOspfBlock (l : Chars) : Option (Chars × Chars) := do
  let (_, r1) ← litCI "router".data l
  let (_, r2) ← spaces1 r1
  let (_, r3) ← litCI "ospf".data r2
  let (_, r4) ← spaces1 r3
  let (run, after) := takeRun isDigitC r4
  if run.isEmpty then none
  else do
    let (taken, _, q) ← btLazy (lazyUntil lookRouterEnd) run after run.length
    some (taken, q)

/-- One candidate of `router\s+bgp\s+(\d+).*?(?=!\s*$|\nrouter\s+\S+)`,
analogous to `matchOspfBlock`. -/
def matchBgpBlock (l : Chars) : Option (Chars × Chars) := do
  let (_, r1) ← litCI "router".data l
  let (_, r2) ← spaces1 r1
  let (_, r3) ← litCI "bgp".data r2
  let (_, r4) ← spaces1 r3
  let (run, after) := takeRun isDigitC r4
  if run.isEmpty then none
  else do
    let (taken, _, q) ← btLazy (lazyUntil lookRouterEnd) run after run.length
    some (taken, q)

/-- `router\s+ospf\s+(\d+)` (IGNORECASE) — the inner search the source runs
over each element that `re.findall` returned. -/
def matchOspfId (l : Chars) : Option Chars := do
  let (_, r1) ← litCI "router".data l
  let (_, r2) ← spaces1 r1
  let (_, r3) ← litCI "ospf".data r2
  let (_, r4) ← spaces1 r3
  let (d, _) ← digits1 r4
  some d

/-- `router\s+bgp\s+(\d+)` (IGNORECASE). -/
def matchBgpId (l : Chars) : Option Chars := do
  let (_, r1) ← litCI "router".data l
  let (_, r2) ← spaces1 r1
  let (_, r3) ← litCI "bgp".data r2
  let (_, r4) ← spaces1 r3
  let (d, _) ← digits1 r4
  some d

/-- `network\s+(quad)\s+(quad)\s+area\s+(\d+)` (IGNORECASE). -/
def matchOspfNetwork (l : Chars) : Option ((Chars × Chars × Chars) × Chars) := do
  let (_, r1) ← litCI "network".data l
  let (_, r2) ← spaces1 r1
  let (q1, r3) ← quad r2
  let (_, r4) ← spaces1 r3
  let (q2, r5) ← quad r4
  let (_, r6) ← spaces1 r5
  let (_, r7) ← litCI "area".data r6
  let (_, r8) ← spaces1 r7
  let (ar, r9) ← digits1 r8
  some ((q1, q2, ar), r9)

/-- `ip\s+route\s+(quad)\s+(quad)\s+(\S+)(?:\s+(\d+))?` (IGNORECASE);
the optional admin-distance group is `none` when absent. -/
def matchStaticRoute (l : Chars) :
    Option ((Chars × Chars × Chars × Option Chars) × Chars) := do
  let (_, r1) ← litCI "ip".data l
  let (_, r2) ← spaces1 r1
  let (_, r3) ← litCI "route".data r2
  let (_, r4) ← spaces1 r3
  let (q1, r5) ← quad r4
  let (_, r6) ← spaces1 r5
  let (q2, r7) ← quad r6
  let (_, r8) ← spaces1 r7
  let (nh, r9) ← nonspace1 r8
  match (do
      let (_, ra) ← spaces1 r9
      digits1 ra : Option (Chars × Chars)) with
  | some (ad, rb) => some ((q1, q2, nh, some ad), rb)
  | none => some ((q1, q2, nh, none), r9)

/-- `ip\s+route\s+0\.0\.0\.0\s+0\.0\.0\.0\s+(\S+)` (IGNORECASE). -/
def matchDefaultRoute (l : Chars) : Option (Chars × Chars) := do
  let (_, r1) ← litCI "ip".data l
  let (_, r2) ← spaces1 r1
  let (_, r3) ← litCI "route".data r2
  let (_, r4) ← spaces1 r3
  let (_, r5) ← litCS "0.0.0.0".data r4
  let (_, r6) ← spaces1 r5
  let (_, r7) ← litCS "0.0.0.0".data r6
  let (_, r8) ← spaces1 r7
  let (nh, r9) ← nonspace1 r8
  some (nh, r9)

/-! Matchers for the regular expressions of `switch_parser.py` (all of them
case-sensitive; note the literal single spaces). -/

/-- `hostname (\S+)` (case-sensitive, literal space). -/
def matchHostnameCS (l : Chars) : Option Chars := do
  let (_, r1) ← litCS "hostname ".data l
  let (tok, _) ← nonspace1 r1
  some tok

/-- Consume up to and including the next newline (`.*\n` with greedy `.*`
that cannot cross newlines). -/
def takeLineNl : Chars → Option (Chars × Chars)
  | [] => none
  | '\n' :: r => some (['\n'], r)
  | c :: r => (takeLineNl r).map (fun p => (c :: p.1, p.2))

/-- The `(?: .*\n)*?!` tail of the switch interface-block regex: lazily take
whole lines that start with a space until a line starting with `!`; `.` does
not match newlines.  Yields `(consumed-including-bang, rest)`.  The fuel is
instantiated with `length + 1`; every recursive step consumes at least one
character. -/
def switchLines : Nat → Chars → Option (Chars × Chars)
  | _, '!' :: r => some (['!'], r)
  | fuel + 1, ' ' :: r => do
    let (line, r2) ← takeLineNl r
    let (cont, r3) ← switchLines fuel r2
    some (' ' :: (line ++ cont), r3)
  | _, _ => none

/-- One candidate of the switch interface-block findall
`(interface \S+\n(?: .*\n)*?!)`; yields `(block, rest-at-match-end)`. -/
def matchIntfBlockS (l : Chars) : Option (Chars × Chars) := do
  let (c1, r1) ← litCS "interface ".data l
  let (run, r2) := takeRun (fun c => !isSpaceC c) r1
  if run.isEmpty then none
  else
    match r2 with
    | '\n' :: r3 => do
      let (body, r4) ← switchLines (r3.length + 1) r3
      some (c1 ++ run ++ '\n' :: body, r4)
    | _ => none

/-- `interface (\S+)` (case-sensitive). -/
def matchIntfNameS (l : Chars) : Option Chars := do
  let (_, r1) ← litCS "interface ".data l
  let (nm, _) ← nonspace1 r1
  some nm

/-- `description (.+)$` (MULTILINE): the rest of the line, at least one
character, `$` holding before the newline or at the end. -/
def matchDescS (l : Chars) : Option Chars := do
  let (_, r1) ← litCS "description ".data l
  let (line, _) := takeRun (fun c => c != '\n') r1
  if line.isEmpty then none else some line

/-- `switchport mode (\S+)` (case-sensitive). -/
def matchSwMode (l : Chars) : Option Chars := do
  let (_, r1) ← litCS "switchport mode ".data l
  let (m, _) ← nonspace1 r1
  some m

/-- `switchport access vlan (\S+)` (case-sensitive). -/
def matchSwVlan (l : Chars) : Option Chars := do
  let (_, r1) ← litCS "switchport access vlan ".data l
  let (v, _) ← nonspace1 r1
  some v

/-! The device model of `device.py`. -/

/-- A router interface record, mirroring the dictionary the router parser
builds (`description`, `ip_address`, `subnet_mask`, `shutdown`, `bandwidth`,
`duplex`, `speed`, `encapsulation`, `vrf`; the `secondary_ips` key is added
only on demand, modelled by the empty-list default). -/
structure RouterIntf where
  description : Option String := none
  ip_address : Option String := none
  subnet_mask : Option String := none
  shutdown : Bool := false
  bandwidth : Option String := none
  duplex : Option String := none
  speed : Option String := none
  encapsulation : Option String := none
  vrf : Option String := none
  secondary_ips : List (String × String) := []
deriving DecidableEq

/-- A switch interface record (`description`, `mode`, `access_vlan`,
`shutdown`). -/
structure SwitchIntf where
  description : Option String := none
  mode : Option String := none
  access_vlan : Option String := none
  shutdown : Bool := false
deriving DecidableEq

/-- A route dictionary: `network`, `mask` and a `type` tag (`static`,
`static_default` or `ospf`), plus the keys present only on some variants
(`next_hop`, `area`, `admin_distance`), modelled as options. -/
structure RouteEntry where
  network : String
  mask : String
  rtype : String
  next_hop : Option String := none
  area : Option String := none
  admin_distance : Option String := none
deriving DecidableEq

/-- The `Router(NetworkDevice)` class: hostname/vendor/model plus the
router-specific fields. -/
structure RouterDev where
  hostname : String := "Unknown"
  vendor : String := "Cisco"
  model : String := "Unknown"
  interfaces : List (String × RouterIntf) := []
  routing_protocols : List String := []
  routes : List RouteEntry := []
  bgp_asn : Option String := none
  ospf_process_id : Option String := none
deriving DecidableEq

/-- The `Switch(NetworkDevice)` class. -/
structure SwitchDev where
  hostname : String := "Unknown"
  vendor : String := "Cisco"
  model : String := "Unknown"
  interfaces : List (String × SwitchIntf) := []
  vlans : List String := []
  stp_mode : Option String := none
deriving DecidableEq

/-- Python dict assignment `m[k] = v`: replace in place if the key exists
(keeping its position), otherwise append. -/
def updAssoc : List (String × α) → String → α → List (String × α)
  | [], k, v => [(k, v)]
  | (k1, v1) :: r, k, v =>
    if k1 = k then (k1, v) :: r else (k1, v1) :: updAssoc r k v

/-- Python set insertion `s.add(v)`. -/
def setAdd (l : List String) (v : String) : List String :=
  if v ∈ l then l else l ++ [v]

/-- The interface dictionary `parse_router_config` builds for one block. -/
def routerBlockProps (b : Chars) : RouterIntf :=
  { description := (searchC matchDescR b).map (fun d => asStr (stripC d))
    ip_address := (searchC matchIpAddr b).map (fun p => asStr p.1)
    subnet_mask := (searchC matchIpAddr b).map (fun p => asStr p.2)
    shutdown := (searchC (litCI "shutdown".data) b).isSome
    bandwidth := (searchC matchBandwidth b).map asStr
    duplex := (searchC matchDuplex b).map asStr
    speed := (searchC matchSpeed b).map asStr
    encapsulation := none
    vrf := none
    secondary_ips :=
      match searchC matchSecIp b with
      | some (i, m) => [(asStr i, asStr m)]
      | none => [] }

/-- Body of the router parser's loop over interface blocks. -/
def routerIntfStep (d : RouterDev) (b : Chars) : RouterDev :=
  match searchC matchIntfName b with
  | none => d
  | some nm =>
    { d with interfaces := updAssoc d.interfaces (asStr nm) (routerBlockProps b) }

/-- Body of the inner loop over the `network … area …` matches of an OSPF
block. -/
def ospfNetworkStep (d : RouterDev) (nt : Chars × Chars × Chars) : RouterDev :=
  { d with routes := d.routes ++
      [{ network := asStr nt.1, mask := asStr nt.2.1, rtype := "ospf",
         area := some (asStr nt.2.2) }] }

/-- Body of the loop over the elements `re.findall` returned for the OSPF
pattern (the captured process-id digit strings). -/
def routerOspfStep (d : RouterDev) (ob : Chars) : RouterDev :=
  match searchC matchOspfId ob with
  | none => d
  | some pid =>
    let d := { d with
      ospf_process_id := some (asStr pid)
      routing_protocols := d.routing_protocols ++ ["ospf_" ++ asStr pid] }
    (findAll matchOspfNetwork ob).foldl ospfNetworkStep d

/-- Body of the loop over the BGP findall elements. -/
def routerBgpStep (d : RouterDev) (ob : Chars) : RouterDev :=
  match searchC matchBgpId ob with
  | none => d
  | some asn =>
    { d with
      bgp_asn := some (asStr asn)
      routing_protocols := d.routing_protocols ++ ["bgp_" ++ asStr asn] }

/-- Body of the loop over static-route matches. -/
def routerStaticStep (d : RouterDev)
    (st : Chars × Chars × Chars × Option Chars) : RouterDev :=
  { d with routes := d.routes ++
      [{ network := asStr st.1, mask := asStr st.2.1, rtype := "static",
         next_hop := some (asStr st.2.2.1),
         admin_distance := st.2.2.2.map asStr }] }

/-- Body of the loop over default-route matches. -/
def routerDefaultStep (d : RouterDev) (nh : Chars) : RouterDev :=
  { d with routes := d.routes ++
      [{ network := "0.0.0.0", mask := "0.0.0.0", rtype := "static_default",
         next_hop := some (asStr nh) }] }

/-- `parse_router_config(config_text, router_device)` from
`router_parser.py`, step for step: hostname, model, interface blocks, the
OSPF/BGP sections (where `re.findall` with a capture group yields only the
captured digit strings, over which the inner searches run), static routes
and default routes. -/
def parse_router_config (config_text : String) (router_device : RouterDev) :
    RouterDev :=
  let cs := config_text.data
  let d := match searchC matchHostnameCI cs with
    | some tok => { router_device with hostname := asStr (stripC tok) }
    | none => router_device
  let d := match searchC matchModel cs with
    | some digs => { d with model := "Cisco " ++ asStr digs }
    | none => d
  let d := (findAll matchIntfBlockR cs).foldl routerIntfStep d
  let d := (findAll matchOspfBlock cs).foldl routerOspfStep d
  let d := (findAll matchBgpBlock cs).foldl routerBgpStep d
  let d := (findAll matchStaticRoute cs).foldl routerStaticStep d
  let d := (findAll matchDefaultRoute cs).foldl routerDefaultStep d
  d

/-- The interface dictionary `parse_switch_config` builds for one block
(without the VLAN step, which also touches the device's `vlans` set). -/
def switchBlockProps (b : Chars) : SwitchIntf :=
  { description := (searchC matchDescS b).map (fun x => asStr (stripC x))
    mode := (searchC matchSwMode b).map asStr
    access_vlan := none
    shutdown := containsSub b "shutdown".data }

/-- Body of the switch parser's loop over interface blocks. -/
def switchIntfStep (d : SwitchDev) (b : Chars) : SwitchDev :=
  match searchC matchIntfNameS b with
  | none => d
  | some nm =>
    let base := switchBlockProps b
    match searchC matchSwVlan b with
    | none => { d with interfaces := updAssoc d.interfaces (asStr nm) base }
    | some v =>
      { d with
        interfaces := updAssoc d.interfaces (asStr nm)
          { base with access_vlan := some (asStr v) }
        vlans := setAdd d.vlans (asStr v) }

/-- `parse_switch_config(config_text, switch_device)` from
`switch_parser.py`: case-sensitive hostname search, line-oriented interface
blocks, per-block description/mode/VLAN extraction. -/
def parse_switch_config (config_text : String) (switch_device : SwitchDev) :
    SwitchDev :=
  let cs := config_text.data
  let d := match searchC matchHostnameCS cs with
    | some tok => { switch_device with hostname := asStr tok }
    | none => switch_device
  (findAll matchIntfBlockS cs).foldl switchIntfStep d

/-- The fixed switch-indicator substrings of `detect_device_type`. -/
def switch_indicators : List String :=
  ["switchport", "spanning-tree", "vtp mode", "vlan database",
   "show mac address-table"]

/-- The fixed router-indicator substrings of `detect_device_type`. -/
def router_indicators : List String :=
  ["router ospf", "router bgp", "router eigrp", "ip route ",
   "interface serial", "ppp authentication", "frame-relay", "ip nat",
   "ipsec", "crypto map"]

/-- `detect_device_type(config_text)` from `device.py`. -/
def detect_device_type (config_text : String) : String :=
  let config_text_lower := (lowerStr config_text).data
  let switch_score :=
    List.countP (fun s => containsSub config_text_lower s.data) switch_indicators
  let router_score :=
    List.countP (fun s => containsSub config_text_lower s.data) router_indicators
  let has_routing_protocol :=
    ["ospf", "bgp", "eigrp", "rip"].any
      (fun s => containsSub config_text_lower s.data)
  let has_switch_commands :=
    ["vlan", "switchport"].any (fun s => containsSub config_text_lower s.data)
  if router_score > switch_score then "router"
  else if switch_score > router_score then "switch"
  else if has_routing_protocol && !has_switch_commands then "router"
  else if has_switch_commands && !has_routing_protocol then "switch"
  else if containsSub config_text_lower "interface serial".data ||
      containsSub config_text_lower "interface tunnel".data then "router"
  else if containsSub config_text_lower "interface vlan".data ||
      containsSub config_text_lower "interface port-channel".data then "switch"
  else "unknown"

/-! The slice of Python's `ipaddress` module used by `topology.py`:
`IPv4Network(f"{ip}/{mask}", strict=False)`, `IPv4Address(s)` and the
containment test `address in network`.  A failed parse is `none`, matching
the `ValueError` the call sites catch. -/

/-- One dotted-quad octet: non-empty, all digits, no leading zero
(as modern CPython's `ipaddress` requires), value at most 255. -/
def parseOctet (s : Chars) : Option Nat :=
  if s.isEmpty then none
  else if !(s.all isDigitC) then none
  else if s.length > 1 && s.headD ' ' == '0' then none
  else
    let v := s.foldl (fun a c => a * 10 + (c.toNat - '0'.toNat)) 0
    if v > 255 then none else some v

def splitOnDot : Chars → List Chars
  | [] => [[]]
  | c :: r =>
    let rest := splitOnDot r
    if c == '.' then [] :: rest
    else
      match rest with
      | [] => [[c]]
      | h :: t => (c :: h) :: t

/-- `IPv4Address(s)` as a 32-bit value. -/
def ipv4 (s : Chars) : Option Nat :=
  match splitOnDot s with
  | [a, b, c, d] => do
    let va ← parseOctet a
    let vb ← parseOctet b
    let vc ← parseOctet c
    let vd ← parseOctet d
    some (va * 16777216 + vb * 65536 + vc * 256 + vd)
  | _ => none

def netmaskOfPrefixLen (p : Nat) : Nat := 2 ^ 32 - 2 ^ (32 - p)

/-- `ipaddress._make_netmask`: a string of digits only (no sign, no
whitespace — `_prefix_from_prefix_string` checks `isdigit()`) is a prefix
length, valid iff at most 32; otherwise a dotted quad that must be a netmask
(contiguous high bits) or, failing that, a hostmask (contiguous low bits). -/
def maskToPrefixLen (s : Chars) : Option Nat :=
  if !s.isEmpty && s.all isDigitC then
    let v := s.foldl (fun a c => a * 10 + (c.toNat - '0'.toNat)) 0
    if v ≤ 32 then some v else none
  else
    match ipv4 s with
    | none => none
    | some m =>
      match (List.range 33).find? (fun p => netmaskOfPrefixLen p == m) with
      | some p => some p
      | none => (List.range 33).find? (fun p => 2 ^ (32 - p) - 1 == m)

structure IPv4Net where
  netaddr : Nat
  prefixLen : Nat
deriving DecidableEq

/-- `IPv4Network(f"{ip}/{mask}", strict=False)`: the f-string is split on
`/`, so a slash inside either field makes the parse fail; with
`strict=False` the host bits are masked off. -/
def mkNetwork (ipS maskS : String) : Option IPv4Net :=
  if ('/' ∈ ipS.data) || ('/' ∈ maskS.data) then none
  else do
    let ip ← ipv4 ipS.data
    let p ← maskToPrefixLen maskS.data
    some ⟨Nat.land ip (netmaskOfPrefixLen p), p⟩

/-- `address in network`. -/
def inNet (a : Nat) (n : IPv4Net) : Bool :=
  Nat.land a (netmaskOfPrefixLen n.prefixLen) == n.netaddr

def dottedStr (v : Nat) : String :=
  toString (v / 16777216) ++ "." ++ toString (v / 65536 % 256) ++ "." ++
    toString (v / 256 % 256) ++ "." ++ toString (v % 256)

/-- `str(network)`. -/
def netStr (n : IPv4Net) : String :=
  dottedStr n.netaddr ++ "/" ++ toString n.prefixLen

/-! The topology engine of `topology.py`. -/

/-- A device handed to `build_topology` is a `Switch` or a `Router`. -/
inductive NetDevice where
  | sw (d : SwitchDev)
  | rt (d : RouterDev)
deriving DecidableEq

def NetDevice.hostname : NetDevice → String
  | .sw d => d.hostname
  | .rt d => d.hostname

/-- `type(device).__name__`. -/
def NetDevice.typeName : NetDevice → String
  | .sw _ => "Switch"
  | .rt _ => "Router"

/-- The keys the topology engine reads from an interface dictionary via
`props.get(...)`: a missing key (switch interfaces have no address fields)
reads as `None`. -/
structure GProps where
  ip_address : Option String
  subnet_mask : Option String
  description : Option String
deriving DecidableEq

def RouterIntf.gview (p : RouterIntf) : GProps :=
  ⟨p.ip_address, p.subnet_mask, p.description⟩

def SwitchIntf.gview (p : SwitchIntf) : GProps :=
  ⟨none, none, p.description⟩

def NetDevice.gInterfaces : NetDevice → List (String × GProps)
  | .sw d => d.interfaces.map (fun p => (p.1, p.2.gview))
  | .rt d => d.interfaces.map (fun p => (p.1, p.2.gview))

/-- Python truthiness of an optional string (`None` and `""` are falsy). -/
def truthy : Option String → Bool
  | none => false
  | some s => s != ""

/-- Edge metadata set by the subnet pass:
`interface1=intf1, interface2=intf2, network=str(network1)`. -/
structure EdgeMeta where
  interface1 : String
  interface2 : String
  network : String
deriving DecidableEq

/-- An undirected edge of the `networkx.Graph`; the description pass adds
edges without attributes (`meta = none`). -/
structure TEdge where
  u : String
  v : String
  meta : Option EdgeMeta
deriving DecidableEq

/-- The `networkx.Graph`: nodes keyed by hostname carrying the device-type
attribute, and at most one edge per unordered hostname pair. -/
structure TGraph where
  nodes : List (String × String)
  edges : List TEdge
deriving DecidableEq

/-- `G.add_node(h, type=ty, ...)`: update attributes in place if the node
exists, else append. -/
def addNode (g : TGraph) (h ty : String) : TGraph :=
  { g with nodes :=
      if g.nodes.any (fun p => p.1 == h) then
        g.nodes.map (fun p => if p.1 == h then (p.1, ty) else p)
      else g.nodes ++ [(h, ty)] }

def pairMatch (e : TEdge) (u v : String) : Bool :=
  (e.u == u && e.v == v) || (e.u == v && e.v == u)

/-- `G.has_edge(u, v)` (undirected). -/
def hasEdge (g : TGraph) (u v : String) : Bool :=
  g.edges.any (fun e => pairMatch e u v)

/-- `G.add_edge(u, v, interface1=…, interface2=…, network=…)`: on an
existing edge the attribute dictionary is overwritten (all three keys are
set), otherwise a new edge is appended. -/
def addEdgeMeta (g : TGraph) (u v : String) (m : EdgeMeta) : TGraph :=
  if g.edges.any (fun e => pairMatch e u v) then
    { g with edges := g.edges.map (fun e =>
        if pairMatch e u v then { e with meta := some m } else e) }
  else { g with edges := g.edges ++ [⟨u, v, some m⟩] }

/-- `G.add_edge(u, v)` with no attributes: an existing edge is untouched,
otherwise a new attribute-free edge is appended. -/
def addEdgeBare (g : TGraph) (u v : String) : TGraph :=
  if g.edges.any (fun e => pairMatch e u v) then g
  else { g with edges := g.edges ++ [⟨u, v, none⟩] }

/-- Inner loop of the subnet pass over `device2.interfaces`: the first
interface whose (valid) address lies in `network1` yields an edge and a
`break`; an address that fails to parse is skipped (`except ValueError:
continue`). -/
def subnetScan2 (g : TGraph) (h1 h2 i1 : String) (n1 : IPv4Net) :
    List (String × GProps) → TGraph
  | [] => g
  | (i2, p2) :: rest =>
    if truthy p2.ip_address then
      match ipv4 (p2.ip_address.getD "").data with
      | none => subnetScan2 g h1 h2 i1 n1 rest
      | some a =>
        if inNet a n1 then addEdgeMeta g h1 h2 ⟨i1, i2, netStr n1⟩
        else subnetScan2 g h1 h2 i1 n1 rest
    else subnetScan2 g h1 h2 i1 n1 rest

/-- Loop of the subnet pass over `enumerate(device_list)` for a fixed
`(device1, intf1, network1)`, skipping `i == j`. -/
def subnetInner (i : Nat) (h1 i1 : String) (n1 : IPv4Net)
    (el : List (Nat × NetDevice)) (g : TGraph) : TGraph :=
  el.foldl (fun g p =>
    if i ≠ p.1 then subnetScan2 g h1 p.2.hostname i1 n1 p.2.gInterfaces else g) g

/-- Subnet pass, body for one `device1`: for each interface with a truthy
address and mask, build `network1` (a `ValueError` skips the interface) and
scan every other device. -/
def subnetDev1 (dl : List NetDevice) (i : Nat) (d1 : NetDevice)
    (g : TGraph) : TGraph :=
  d1.gInterfaces.foldl (fun g p =>
    if truthy p.2.ip_address && truthy p.2.subnet_mask then
      match mkNetwork (p.2.ip_address.getD "") (p.2.subnet_mask.getD "") with
      | none => g
      | some n1 => subnetInner i d1.hostname p.1 n1 dl.enum g
    else g) g

/-- Description-pass scan over the other devices for one interface with a
truthy description, with the `break` after the first edge added. -/
def descScan (g : TGraph) (dh desc : String) : List NetDevice → TGraph
  | [] => g
  | other :: rest =>
    if containsSub desc.data (lowerStr other.hostname).data &&
        other.hostname != dh && !hasEdge g dh other.hostname then
      addEdgeBare g dh other.hostname
    else descScan g dh desc rest

/-- Description pass, body for one device. -/
def descDev (dl : List NetDevice) (d : NetDevice) (g : TGraph) : TGraph :=
  d.gInterfaces.foldl (fun g p =>
    if truthy p.2.description then
      descScan g d.hostname (lowerStr (p.2.description.getD "")) dl
    else g) g

/-- Node-adding phase; the device list is threaded through explicitly to
record that the pass only reads the devices. -/
def addNodesPhase : List NetDevice → TGraph → TGraph × List NetDevice
  | [], g => (g, [])
  | d :: rest, g =>
    let r := addNodesPhase rest (addNode g d.hostname d.typeName)
    (r.1, d :: r.2)

/-- Subnet pass over `enumerate(device_list)`, device list threaded. -/
def subnetOuter (dl : List NetDevice) :
    List (Nat × NetDevice) → TGraph → TGraph × List NetDevice
  | [], g => (g, [])
  | (i, d1) :: rest, g =>
    let r := subnetOuter dl rest (subnetDev1 dl i d1 g)
    (r.1, d1 :: r.2)

def subnetPhase (dl : List NetDevice) (g : TGraph) :
    TGraph × List NetDevice :=
  subnetOuter dl dl.enum g

/-- Description pass, device list threaded. -/
def descOuter (dl : List NetDevice) :
    List NetDevice → TGraph → TGraph × List NetDevice
  | [], g => (g, [])
  | d :: rest, g =>
    let r := descOuter dl rest (descDev dl d g)
    (r.1, d :: r.2)

def descPhase (dl : List NetDevice) (g : TGraph) :
    TGraph × List NetDevice :=
  descOuter dl dl g

/-- `build_topology(device_list)` from `topology.py`.  The result pairs the
returned graph with the device list as the pipeline leaves it; the graph
passes only read the devices, which theorem `build_topology_reads_only`
below makes explicit. -/
def build_topology (device_list : List NetDevice) :
    TGraph × List NetDevice :=
  let g0 : TGraph := { nodes := [], edges := [] }
  let r1 := addNodesPhase device_list g0
  let r2 := subnetPhase r1.2 r1.1
  let r3 := descPhase r2.2 r2.1
  r3

/-! Helper lemmas shared by the claim theorems. -/

theorem foldl_fixed {α β : Type} {f : β → α → β} (h : ∀ b a, f b a = b) :
    ∀ (l : List α) (b : β), List.foldl f b l = b
  | [], _ => rfl
  | x :: l, b => by rw [List.foldl_cons, h]; exact foldl_fixed h l b

theorem subnetDev1_self (d : NetDevice) (g : TGraph) :
    subnetDev1 [d] 0 d g = g := by
  unfold subnetDev1
  apply foldl_fixed
  intro g2 p
  cases htr : (truthy p.2.ip_address && truthy p.2.subnet_mask) with
  | false => simp [htr]
  | true =>
    simp only [htr, if_true]
    cases mkNetwork (p.2.ip_address.getD "") (p.2.subnet_mask.getD "") with
    | none => rfl
    | some n1 => simp [subnetInner, List.enum]

theorem descDev_self (d : NetDevice) (g : TGraph) : descDev [d] d g = g := by
  unfold descDev
  apply foldl_fixed
  intro g2 p
  cases htr : truthy p.2.description with
  | false => simp [htr]
  | true => simp [htr, descScan]

theorem addNodesPhase_snd : ∀ (dl : List NetDevice) (g : TGraph),
    (addNodesPhase dl g).2 = dl
  | [], _ => rfl
  | d :: rest, g => by simp [addNodesPhase, addNodesPhase_snd rest _]

theorem subnetOuter_snd (dl : List NetDevice) :
    ∀ (el : List (Nat × NetDevice)) (g : TGraph),
      (subnetOuter dl el g).2 = el.map Prod.snd
  | [], _ => rfl
  | (i, d1) :: rest, g => by simp [subnetOuter, subnetOuter_snd dl rest _]

theorem descOuter_snd (dl : List NetDevice) :
    ∀ (el : List NetDevice) (g : TGraph), (descOuter dl el g).2 = el
  | [], _ => rfl
  | d :: rest, g => by simp [descOuter, descOuter_snd dl rest _]

theorem foldl_pres {α β γ : Type} (P : β → γ) {f : β → α → β}
    (h : ∀ b a, P (f b a) = P b) :
    ∀ (l : List α) (b : β), P (List.foldl f b l) = P b
  | [], _ => rfl
  | x :: l, b => by rw [List.foldl_cons, foldl_pres P h l, h]

theorem ospfNetworkStep_hostname (d : RouterDev) (nt : Chars × Chars × Chars) :
    (ospfNetworkStep d nt).hostname = d.hostname := rfl

theorem routerIntfStep_hostname (d : RouterDev) (b : Chars) :
    (routerIntfStep d b).hostname = d.hostname := by
  unfold routerIntfStep; cases searchC matchIntfName b <;> rfl

theorem routerOspfStep_hostname (d : RouterDev) (ob : Chars) :
    (routerOspfStep d ob).hostname = d.hostname := by
  unfold routerOspfStep
  cases searchC matchOspfId ob with
  | none => rfl
  | some pid => exact foldl_pres RouterDev.hostname ospfNetworkStep_hostname _ _

theorem routerBgpStep_hostname (d : RouterDev) (ob : Chars) :
    (routerBgpStep d ob).hostname = d.hostname := by
  unfold routerBgpStep; cases searchC matchBgpId ob <;> rfl

theorem routerStaticStep_hostname (d : RouterDev)
    (st : Chars × Chars × Chars × Option Chars) :
    (routerStaticStep d st).hostname = d.hostname := rfl

theorem routerDefaultStep_hostname (d : RouterDev) (nh : Chars) :
    (routerDefaultStep d nh).hostname = d.hostname := rfl

theorem switchIntfStep_hostname (d : SwitchDev) (b : Chars) :
    (switchIntfStep d b).hostname = d.hostname := by
  unfold switchIntfStep
  cases searchC matchIntfNameS b with
  | none => rfl
  | some nm => cases searchC matchSwVlan b <;> rfl

/-- Case-insensitive substring containment — the spec-side reading of
"the substring occurs case-insensitively". -/
def ciContains (hay pat : Chars) : Bool :=
  containsSub (hay.map lowerC) (pat.map lowerC)

theorem litCI_isSome : ∀ (pat l : Chars),
    (litCI pat l).isSome = (pat.map lowerC).isPrefixOf (l.map lowerC)
  | [], l => by cases l <;> simp [litCI, List.isPrefixOf]
  | p :: ps, [] => by simp [litCI, List.isPrefixOf]
  | p :: ps, c :: cs => by
    have he : eqCI p c = (lowerC p == lowerC c) := rfl
    simp only [litCI, List.map_cons, List.isPrefixOf, ← he]
    cases h : eqCI p c with
    | false => simp [h]
    | true => simp [h, litCI_isSome ps cs]

/-- A case-insensitive literal `re.search` succeeds exactly on
case-insensitive substring containment. -/
theorem searchC_litCI (pat : Chars) : ∀ l : Chars,
    (searchC (litCI pat) l).isSome = containsSub (l.map lowerC) (pat.map lowerC)
  | [] => by
    simp only [searchC, containsSub, List.map_nil]
    rw [litCI_isSome]
    simp [containsSub]
  | c :: r => by
    simp only [searchC]
    cases h : litCI pat (c :: r) with
    | some a =>
      have hp : (litCI pat (c :: r)).isSome = true := by rw [h]; rfl
      rw [litCI_isSome, List.map_cons] at hp
      simp only [containsSub, List.map_cons, hp]
      rfl
    | none =>
      have hp : (litCI pat (c :: r)).isSome = false := by rw [h]; rfl
      rw [litCI_isSome, List.map_cons] at hp
      simp only [containsSub, List.map_cons, hp]
      simp [searchC_litCI pat r]


def edgesOK (l : List TEdge) : Prop :=
  (∀ e ∈ l, e.u ≠ e.v) ∧ l.Pairwise (fun e f => pairMatch f e.u e.v = false)

theorem pairMatch_congr {e e2 : TEdge} (hu : e.u = e2.u) (hv : e.v = e2.v)
    (x y : String) : pairMatch e x y = pairMatch e2 x y := by
  simp [pairMatch, hu, hv]

theorem pairMatch_flip (e : TEdge) (u v : String) (m : Option EdgeMeta) :
    pairMatch e u v = pairMatch ⟨u, v, m⟩ e.u e.v := by
  rw [Bool.eq_iff_iff]
  simp only [pairMatch, Bool.or_eq_true, Bool.and_eq_true, beq_iff_eq]
  constructor <;> (rintro (⟨h1, h2⟩ | ⟨h1, h2⟩) <;> subst h1 <;> subst h2 <;> simp)

theorem foldl_inv {α β : Type} (P : β → Prop) {f : β → α → β} :
    ∀ (l : List α) (b : β), (∀ b a, a ∈ l → P b → P (f b a)) → P b →
      P (List.foldl f b l)
  | [], _, _, hb => hb
  | x :: l, b, h, hb =>
    foldl_inv P l _ (fun b a ha => h b a (List.mem_cons_of_mem _ ha))
      (h b x (List.mem_cons_self _ _) hb)

theorem appended_edge_ok {l : List TEdge} {u v : String} {m : Option EdgeMeta}
    (huv : u ≠ v) (h : edgesOK l)
    (hall : ∀ e ∈ l, pairMatch e u v = false) :
    edgesOK (l ++ [⟨u, v, m⟩]) := by
  constructor
  · intro e he
    rcases List.mem_append.mp he with h1 | h1
    · exact h.1 e h1
    · simp at h1; subst h1; exact huv
  · rw [List.pairwise_append]
    refine ⟨h.2, List.pairwise_singleton _ _, ?_⟩
    intro a ha b hb
    simp at hb; subst hb
    rw [← pairMatch_flip]
    exact hall a ha

theorem addEdgeMeta_ok {g : TGraph} {u v : String} {m : EdgeMeta}
    (huv : u ≠ v) (h : edgesOK g.edges) :
    edgesOK (addEdgeMeta g u v m).edges := by
  unfold addEdgeMeta
  split
  next hc =>
    have hfu : ∀ e : TEdge,
        ((if pairMatch e u v = true then { e with meta := some m } else e) : TEdge).u = e.u := by
      intro e; by_cases hp : pairMatch e u v = true <;> simp [hp]
    have hfv : ∀ e : TEdge,
        ((if pairMatch e u v = true then { e with meta := some m } else e) : TEdge).v = e.v := by
      intro e; by_cases hp : pairMatch e u v = true <;> simp [hp]
    constructor
    · intro e2 he2
      rcases List.mem_map.mp he2 with ⟨e, he, rfl⟩
      rw [hfu e, hfv e]
      exact h.1 e he
    · refine h.2.map _ (fun a b hab => ?_)
      rw [hfu a, hfv a, pairMatch_congr (hfu b) (hfv b)]
      exact hab
  next hc =>
    have hf : g.edges.any (fun e => pairMatch e u v) = false := by simpa using hc
    refine appended_edge_ok huv h (fun e he => ?_)
    simpa using List.any_eq_false.mp hf e he

theorem addEdgeBare_ok {g : TGraph} {u v : String}
    (huv : u ≠ v) (h : edgesOK g.edges) :
    edgesOK (addEdgeBare g u v).edges := by
  unfold addEdgeBare
  split
  next hc => exact h
  next hc =>
    have hf : g.edges.any (fun e => pairMatch e u v) = false := by simpa using hc
    refine appended_edge_ok huv h (fun e he => ?_)
    simpa using List.any_eq_false.mp hf e he

theorem subnetScan2_ok {g : TGraph} {h1 h2 i1 : String} {n1 : IPv4Net}
    (h12 : h1 ≠ h2) (hO : edgesOK g.edges) :
    ∀ il, edgesOK (subnetScan2 g h1 h2 i1 n1 il).edges
  | [] => hO
  | (i2, p2) :: rest => by
    simp only [subnetScan2]
    split
    · split
      · exact subnetScan2_ok h12 hO rest
      · split
        · exact addEdgeMeta_ok h12 hO
        · exact subnetScan2_ok h12 hO rest
    · exact subnetScan2_ok h12 hO rest

theorem subnetInner_ok {i : Nat} {h1 i1 : String} {n1 : IPv4Net}
    {el : List (Nat × NetDevice)} {g : TGraph}
    (hp : ∀ p ∈ el, i ≠ p.1 → h1 ≠ p.2.hostname)
    (hO : edgesOK g.edges) : edgesOK (subnetInner i h1 i1 n1 el g).edges := by
  unfold subnetInner
  refine foldl_inv (fun g => edgesOK g.edges) el g (fun g2 p hpmem hg2 => ?_) hO
  by_cases hij : i ≠ p.1
  · rw [if_pos hij]; exact subnetScan2_ok (hp p hpmem hij) hg2 _
  · rw [if_neg hij]; exact hg2

theorem subnetDev1_ok {dl : List NetDevice} {i : Nat} {d1 : NetDevice}
    {g : TGraph}
    (hp : ∀ p ∈ dl.enum, i ≠ p.1 → d1.hostname ≠ p.2.hostname)
    (hO : edgesOK g.edges) : edgesOK (subnetDev1 dl i d1 g).edges := by
  unfold subnetDev1
  refine foldl_inv (fun g => edgesOK g.edges) _ g (fun g2 p hpmem hg2 => ?_) hO
  split
  · split
    · exact hg2
    · exact subnetInner_ok hp hg2
  · exact hg2

theorem subnetOuter_ok {dl : List NetDevice} :
    ∀ (el : List (Nat × NetDevice)) (g : TGraph),
      (∀ q ∈ el, ∀ p ∈ dl.enum, q.1 ≠ p.1 → q.2.hostname ≠ p.2.hostname) →
      edgesOK g.edges → edgesOK (subnetOuter dl el g).1.edges
  | [], _, _, hO => hO
  | (i, d1) :: rest, g, hq, hO => by
    simp only [subnetOuter]
    exact subnetOuter_ok rest _
      (fun q hqm => hq q (List.mem_cons_of_mem _ hqm))
      (subnetDev1_ok (hq (i, d1) (List.mem_cons_self _ _)) hO)

theorem descScan_ok {g : TGraph} {dh desc : String}
    (hO : edgesOK g.edges) : ∀ ol, edgesOK (descScan g dh desc ol).edges
  | [] => hO
  | other :: rest => by
    simp only [descScan]
    split
    next hcond =>
      have hcc := hcond
      simp only [Bool.and_eq_true, bne_iff_ne] at hcc
      exact addEdgeBare_ok (Ne.symm hcc.1.2) hO
    next => exact descScan_ok hO rest

theorem descDev_ok {dl : List NetDevice} {d : NetDevice} {g : TGraph}
    (hO : edgesOK g.edges) : edgesOK (descDev dl d g).edges := by
  unfold descDev
  refine foldl_inv (fun g => edgesOK g.edges) _ g (fun g2 p hpmem hg2 => ?_) hO
  split
  · exact descScan_ok hg2 dl
  · exact hg2

theorem descOuter_ok {dl : List NetDevice} :
    ∀ (el : List NetDevice) (g : TGraph),
      edgesOK g.edges → edgesOK (descOuter dl el g).1.edges
  | [], _, hO => hO
  | d :: rest, g, hO => by
    simp only [descOuter]
    exact descOuter_ok rest _ (descDev_ok hO)

theorem addNodesPhase_fst_edges : ∀ (dl : List NetDevice) (g : TGraph),
    (addNodesPhase dl g).1.edges = g.edges
  | [], _ => rfl
  | d :: rest, g => by
    simp only [addNodesPhase]
    rw [addNodesPhase_fst_edges rest]
    rfl

theorem enum_hostname_ne {dl : List NetDevice}
    (hnd : (dl.map NetDevice.hostname).Nodup) :
    ∀ q ∈ dl.enum, ∀ p ∈ dl.enum, q.1 ≠ p.1 → q.2.hostname ≠ p.2.hostname := by
  rintro ⟨i, d1⟩ hq ⟨j, d2⟩ hp hij heq
  rw [List.mk_mem_enum_iff_getElem?] at hq hp
  have h1 : (dl.map NetDevice.hostname)[i]? = some d1.hostname := by
    rw [List.getElem?_map, hq]; rfl
  have h2 : (dl.map NetDevice.hostname)[j]? = some d2.hostname := by
    rw [List.getElem?_map, hp]; rfl
  rw [heq] at h1
  have hjlen : j < (dl.map NetDevice.hostname).length := by
    rcases List.getElem?_eq_some.mp h2 with ⟨hh, _⟩
    exact hh
  have hilen : i < (dl.map NetDevice.hostname).length := by
    rcases List.getElem?_eq_some.mp h1 with ⟨hh, _⟩
    exact hh
  rcases Nat.lt_trichotomy i j with hlt | heq2 | hgt
  · exact List.nodup_iff_getElem?_ne_getElem?.mp hnd i j hlt hjlen
      (h1.trans h2.symm)
  · exact hij (by simp [heq2])
  · exact List.nodup_iff_getElem?_ne_getElem?.mp hnd j i hgt hilen
      (h2.trans h1.symm)

theorem addEdgeBare_mem {g : TGraph} {u v : String} {e : TEdge}
    (he : e ∈ g.edges) : e ∈ (addEdgeBare g u v).edges := by
  unfold addEdgeBare
  split
  · exact he
  · exact List.mem_append_left _ he

theorem descScan_mem {g : TGraph} {dh desc : String} {e : TEdge}
    (he : e ∈ g.edges) : ∀ ol, e ∈ (descScan g dh desc ol).edges
  | [] => he
  | other :: rest => by
    simp only [descScan]
    split
    · exact addEdgeBare_mem he
    · exact descScan_mem he rest

theorem descDev_mem {dl : List NetDevice} {d : NetDevice} {g : TGraph}
    {e : TEdge} (he : e ∈ g.edges) : e ∈ (descDev dl d g).edges := by
  unfold descDev
  refine foldl_inv (fun g => e ∈ g.edges) _ g (fun g2 p hm hg2 => ?_) he
  split
  · exact descScan_mem hg2 dl
  · exact hg2

theorem descOuter_mem {dl : List NetDevice} :
    ∀ (el : List NetDevice) (g : TGraph) (e : TEdge),
      e ∈ g.edges → e ∈ (descOuter dl el g).1.edges
  | [], _, _, he => he
  | d :: rest, g, e, he => by
    simp only [descOuter]
    exact descOuter_mem rest _ e (descDev_mem he)

def subnetStage (dl : List NetDevice) : TGraph :=
  (subnetPhase (addNodesPhase dl { nodes := [], edges := [] }).2
    (addNodesPhase dl { nodes := [], edges := [] }).1).1


theorem takeRun_all {p : Char → Bool} : ∀ {l : Chars},
    (∀ c ∈ l, p c = true) → takeRun p l = (l, [])
  | [], _ => rfl
  | c :: r, h => by
    simp only [takeRun, h c (List.mem_cons_self _ _), if_true,
      takeRun_all (fun x hx => h x (List.mem_cons_of_mem _ hx))]

theorem takeRun_none {p : Char → Bool} {l : Chars}
    (h : ∀ c ∈ l, p c = false) : takeRun p l = ([], l) := by
  cases l with
  | nil => rfl
  | cons c r => simp [takeRun, h c (List.mem_cons_self _ _)]

theorem nonspace1_all {l : Chars} (h1 : l ≠ [])
    (h2 : ∀ c ∈ l, isSpaceC c = false) : nonspace1 l = some (l, []) := by
  unfold nonspace1
  rw [takeRun_all (fun c hc => by simp [h2 c hc])]
  simp [h1]

theorem spaces1_cons_nsp {l : Chars}
    (h2 : ∀ c ∈ l, isSpaceC c = false) :
    spaces1 (' ' :: l) = some ([' '], l) := by
  have hsp : isSpaceC ' ' = true := by decide
  unfold spaces1
  simp [takeRun, takeRun_none h2, hsp]

theorem matchStatic_text1 {l : Chars} (h1 : l ≠ [])
    (h2 : ∀ c ∈ l, isSpaceC c = false) :
    matchStaticRoute ("ip route 0.0.0.0 0.0.0.0 ".data ++ l) =
      some (("0.0.0.0".data, "0.0.0.0".data, l, none), []) := by
  have e1 : litCI "ip".data ("ip route 0.0.0.0 0.0.0.0 ".data ++ l) =
      some (['i', 'p'], " route 0.0.0.0 0.0.0.0 ".data ++ l) := rfl
  have e2 : spaces1 (" route 0.0.0.0 0.0.0.0 ".data ++ l) =
      some ([' '], "route 0.0.0.0 0.0.0.0 ".data ++ l) := rfl
  have e3 : litCI "route".data ("route 0.0.0.0 0.0.0.0 ".data ++ l) =
      some ("route".data, " 0.0.0.0 0.0.0.0 ".data ++ l) := rfl
  have e4 : spaces1 (" 0.0.0.0 0.0.0.0 ".data ++ l) =
      some ([' '], "0.0.0.0 0.0.0.0 ".data ++ l) := rfl
  have e5 : quad ("0.0.0.0 0.0.0.0 ".data ++ l) =
      some ("0.0.0.0".data, " 0.0.0.0 ".data ++ l) := rfl
  have e6 : spaces1 (" 0.0.0.0 ".data ++ l) =
      some ([' '], "0.0.0.0 ".data ++ l) := rfl
  have e7 : quad ("0.0.0.0 ".data ++ l) =
      some ("0.0.0.0".data, ' ' :: l) := rfl
  have e8 := spaces1_cons_nsp h2
  have e9 := nonspace1_all h1 h2
  simp only [matchStaticRoute, e1, Option.bind_eq_bind, Option.some_bind, e2,
    e3, e4, e5, e6, e7, e8, e9]
  rfl

theorem matchDefault_text1 {l : Chars} (h1 : l ≠ [])
    (h2 : ∀ c ∈ l, isSpaceC c = false) :
    matchDefaultRoute ("ip route 0.0.0.0 0.0.0.0 ".data ++ l) =
      some (l, []) := by
  have e1 : litCI "ip".data ("ip route 0.0.0.0 0.0.0.0 ".data ++ l) =
      some (['i', 'p'], " route 0.0.0.0 0.0.0.0 ".data ++ l) := rfl
  have e2 : spaces1 (" route 0.0.0.0 0.0.0.0 ".data ++ l) =
      some ([' '], "route 0.0.0.0 0.0.0.0 ".data ++ l) := rfl
  have e3 : litCI "route".data ("route 0.0.0.0 0.0.0.0 ".data ++ l) =
      some ("route".data, " 0.0.0.0 0.0.0.0 ".data ++ l) := rfl
  have e4 : spaces1 (" 0.0.0.0 0.0.0.0 ".data ++ l) =
      some ([' '], "0.0.0.0 0.0.0.0 ".data ++ l) := rfl
  have e5 : litCS "0.0.0.0".data ("0.0.0.0 0.0.0.0 ".data ++ l) =
      some ("0.0.0.0".data, " 0.0.0.0 ".data ++ l) := rfl
  have e6 : spaces1 (" 0.0.0.0 ".data ++ l) =
      some ([' '], "0.0.0.0 ".data ++ l) := rfl
  have e7 : litCS "0.0.0.0".data ("0.0.0.0 ".data ++ l) =
      some ("0.0.0.0".data, ' ' :: l) := rfl
  have e8 := spaces1_cons_nsp h2
  have e9 := nonspace1_all h1 h2
  simp only [matchDefaultRoute, e1, Option.bind_eq_bind, Option.some_bind, e2,
    e3, e4, e5, e6, e7, e8, e9]

theorem matchStatic_text2 {l : Chars} (h1 : l ≠ [])
    (h2 : ∀ c ∈ l, isSpaceC c = false) :
    matchStaticRoute ("ip route 10.20.30.0 255.255.255.0 ".data ++ l) =
      some (("10.20.30.0".data, "255.255.255.0".data, l, none), []) := by
  have e1 : litCI "ip".data ("ip route 10.20.30.0 255.255.255.0 ".data ++ l) =
      some (['i', 'p'], " route 10.20.30.0 255.255.255.0 ".data ++ l) := rfl
  have e2 : spaces1 (" route 10.20.30.0 255.255.255.0 ".data ++ l) =
      some ([' '], "route 10.20.30.0 255.255.255.0 ".data ++ l) := rfl
  have e3 : litCI "route".data ("route 10.20.30.0 255.255.255.0 ".data ++ l) =
      some ("route".data, " 10.20.30.0 255.255.255.0 ".data ++ l) := rfl
  have e4 : spaces1 (" 10.20.30.0 255.255.255.0 ".data ++ l) =
      some ([' '], "10.20.30.0 255.255.255.0 ".data ++ l) := rfl
  have e5 : quad ("10.20.30.0 255.255.255.0 ".data ++ l) =
      some ("10.20.30.0".data, " 255.255.255.0 ".data ++ l) := rfl
  have e6 : spaces1 (" 255.255.255.0 ".data ++ l) =
      some ([' '], "255.255.255.0 ".data ++ l) := rfl
  have e7 : quad ("255.255.255.0 ".data ++ l) =
      some ("255.255.255.0".data, ' ' :: l) := rfl
  have e8 := spaces1_cons_nsp h2
  have e9 := nonspace1_all h1 h2
  simp only [matchStaticRoute, e1, Option.bind_eq_bind, Option.some_bind, e2,
    e3, e4, e5, e6, e7, e8, e9]
  rfl

theorem findAllF_nil {α : Type} {m : Chars → Option (α × Chars)}
    (h : m [] = none) : ∀ fuel, findAllF m fuel [] = ([] : List α) := by
  intro fuel
  cases fuel <;> simp [findAllF, h]

theorem findAllF_succ {α : Type} (m : Chars → Option (α × Chars))
    (fuel : Nat) (l : Chars) :
    findAllF m (fuel + 1) l =
      (match m l with
       | some (a, rest) => a :: findAllF m fuel rest
       | none =>
         match l with
         | [] => []
         | _ :: r => findAllF m fuel r) := rfl

theorem findAll_static_text1 {l : Chars} (h1 : l ≠ [])
    (h2 : ∀ c ∈ l, isSpaceC c = false) :
    findAll matchStaticRoute ("ip route 0.0.0.0 0.0.0.0 ".data ++ l) =
      [("0.0.0.0".data, "0.0.0.0".data, l, none)] := by
  unfold findAll
  rw [findAllF_succ, matchStatic_text1 h1 h2]
  show (("0.0.0.0".data, "0.0.0.0".data, l, none) ::
    findAllF matchStaticRoute ("ip route 0.0.0.0 0.0.0.0 ".data ++ l).length []) = _
  rw [findAllF_nil rfl]

theorem findAll_default_text1 {l : Chars} (h1 : l ≠ [])
    (h2 : ∀ c ∈ l, isSpaceC c = false) :
    findAll matchDefaultRoute ("ip route 0.0.0.0 0.0.0.0 ".data ++ l) =
      [l] := by
  unfold findAll
  rw [findAllF_succ, matchDefault_text1 h1 h2]
  show (l :: findAllF matchDefaultRoute
    ("ip route 0.0.0.0 0.0.0.0 ".data ++ l).length []) = _
  rw [findAllF_nil rfl]

theorem findAll_static_text2 {l : Chars} (h1 : l ≠ [])
    (h2 : ∀ c ∈ l, isSpaceC c = false) :
    findAll matchStaticRoute ("ip route 10.20.30.0 255.255.255.0 ".data ++ l) =
      [("10.20.30.0".data, "255.255.255.0".data, l, none)] := by
  unfold findAll
  rw [findAllF_succ, matchStatic_text2 h1 h2]
  show (("10.20.30.0".data, "255.255.255.0".data, l, none) ::
    findAllF matchStaticRoute
      ("ip route 10.20.30.0 255.255.255.0 ".data ++ l).length []) = _
  rw [findAllF_nil rfl]


theorem spaces1_none {l : Chars} (h : ∀ c ∈ l, isSpaceC c = false) :
    spaces1 l = none := by
  simp [spaces1, takeRun_none h]

theorem litCI_rest_suffix : ∀ (pat l : Chars) {pr : Chars × Chars},
    litCI pat l = some pr → pr.2 <:+ l
  | [], l, pr, h => by
    simp only [litCI, Option.some.injEq] at h
    subst h
    exact List.suffix_refl l
  | p :: ps, [], pr, h => by simp [litCI] at h
  | p :: ps, x :: xs, pr, h => by
    simp only [litCI] at h
    by_cases he : eqCI p x = true
    · rw [if_pos he] at h
      cases hm : litCI ps xs with
      | none => rw [hm] at h; simp at h
      | some q =>
        rw [hm] at h
        simp only [Option.map_some', Option.some.injEq] at h
        have hs := litCI_rest_suffix ps xs hm
        rw [← h]
        exact hs.trans (List.suffix_cons x xs)
    · rw [if_neg he] at h; simp at h

theorem matchOspfBlock_nsp {l : Chars}
    (h : ∀ c ∈ l, isSpaceC c = false) : matchOspfBlock l = none := by
  unfold matchOspfBlock
  cases hm : litCI "router".data l with
  | none => rfl
  | some pr =>
    obtain ⟨c0, r1⟩ := pr
    have hs := litCI_rest_suffix _ _ hm
    have h1 : spaces1 r1 = none :=
      spaces1_none (fun c hc => h c (hs.subset hc))
    simp [hm, h1]

theorem matchBgpBlock_nsp {l : Chars}
    (h : ∀ c ∈ l, isSpaceC c = false) : matchBgpBlock l = none := by
  unfold matchBgpBlock
  cases hm : litCI "router".data l with
  | none => rfl
  | some pr =>
    obtain ⟨c0, r1⟩ := pr
    have hs := litCI_rest_suffix _ _ hm
    have h1 : spaces1 r1 = none :=
      spaces1_none (fun c hc => h c (hs.subset hc))
    simp [hm, h1]

theorem findAllF_eq_nil {α : Type} {m : Chars → Option (α × Chars)} :
    ∀ (fuel : Nat) (l : Chars), (∀ l2, l2 <:+ l → m l2 = none) →
      findAllF m fuel l = []
  | 0, _, _ => rfl
  | fuel + 1, l, h => by
    rw [findAllF_succ, h l (List.suffix_refl l)]
    cases l with
    | nil => rfl
    | cons c r =>
      exact findAllF_eq_nil fuel r
        (fun l2 hl2 => h l2 (hl2.trans (List.suffix_cons c r)))

theorem suffix_split {α : Type} {a b l : List α} (h : l <:+ a ++ b) :
    l <:+ b ∨ ∃ a2, a2 <:+ a ∧ a2 ≠ [] ∧ l = a2 ++ b := by
  induction a with
  | nil => exact Or.inl (by simpa using h)
  | cons x a ih =>
    rw [List.cons_append] at h
    rcases List.suffix_cons_iff.mp h with h1 | h1
    · exact Or.inr ⟨x :: a, List.suffix_refl _, by simp, by rw [h1]; rfl⟩
    · rcases ih h1 with h2 | ⟨a2, ha2, hne, rfl⟩
      · exact Or.inl h2
      · exact Or.inr ⟨a2, ha2.trans (List.suffix_cons x a), hne, rfl⟩

theorem findAll_ospf_text1 {l : Chars}
    (h2 : ∀ c ∈ l, isSpaceC c = false) :
    findAll matchOspfBlock ("ip route 0.0.0.0 0.0.0.0 ".data ++ l) = [] := by
  apply findAllF_eq_nil
  intro l2 hl2
  rcases suffix_split hl2 with hsuf | ⟨a2, ha2, hne, rfl⟩
  · exact matchOspfBlock_nsp (fun c hc => h2 c (hsuf.subset hc))
  · rw [← List.mem_tails] at ha2
    fin_cases ha2 <;> first | (exact absurd rfl hne) | rfl

theorem findAll_bgp_text1 {l : Chars}
    (h2 : ∀ c ∈ l, isSpaceC c = false) :
    findAll matchBgpBlock ("ip route 0.0.0.0 0.0.0.0 ".data ++ l) = [] := by
  apply findAllF_eq_nil
  intro l2 hl2
  rcases suffix_split hl2 with hsuf | ⟨a2, ha2, hne, rfl⟩
  · exact matchBgpBlock_nsp (fun c hc => h2 c (hsuf.subset hc))
  · rw [← List.mem_tails] at ha2
    fin_cases ha2 <;> first | (exact absurd rfl hne) | rfl

theorem findAll_ospf_text2 {l : Chars}
    (h2 : ∀ c ∈ l, isSpaceC c = false) :
    findAll matchOspfBlock
      ("ip route 10.20.30.0 255.255.255.0 ".data ++ l) = [] := by
  apply findAllF_eq_nil
  intro l2 hl2
  rcases suffix_split hl2 with hsuf | ⟨a2, ha2, hne, rfl⟩
  · exact matchOspfBlock_nsp (fun c hc => h2 c (hsuf.subset hc))
  · rw [← List.mem_tails] at ha2
    fin_cases ha2 <;> first | (exact absurd rfl hne) | rfl

theorem findAll_bgp_text2 {l : Chars}
    (h2 : ∀ c ∈ l, isSpaceC c = false) :
    findAll matchBgpBlock
      ("ip route 10.20.30.0 255.255.255.0 ".data ++ l) = [] := by
  apply findAllF_eq_nil
  intro l2 hl2
  rcases suffix_split hl2 with hsuf | ⟨a2, ha2, hne, rfl⟩
  · exact matchBgpBlock_nsp (fun c hc => h2 c (hsuf.subset hc))
  · rw [← List.mem_tails] at ha2
    fin_cases ha2 <;> first | (exact absurd rfl hne) | rfl

theorem findAll_default_text2 {l : Chars}
    (h2 : ∀ c ∈ l, isSpaceC c = false) :
    findAll matchDefaultRoute
      ("ip route 10.20.30.0 255.255.255.0 ".data ++ l) = [] := by
  apply findAllF_eq_nil
  intro l2 hl2
  rcases suffix_split hl2 with hsuf | ⟨a2, ha2, hne, rfl⟩
  · refine ?nsp
    unfold matchDefaultRoute
    cases hm : litCI "ip".data l2 with
    | none => rfl
    | some pr =>
      obtain ⟨c0, r1⟩ := pr
      have hs := litCI_rest_suffix _ _ hm
      have h1 : spaces1 r1 = none :=
        spaces1_none (fun c hc => h2 c (hsuf.subset (hs.subset hc)))
      simp [hm, h1]
  · rw [← List.mem_tails] at ha2
    fin_cases ha2 <;> first | (exact absurd rfl hne) | rfl

theorem routerIntfStep_routes (d : RouterDev) (b : Chars) :
    (routerIntfStep d b).routes = d.routes := by
  unfold routerIntfStep; cases searchC matchIntfName b <;> rfl

/-- The `static` route dictionary built for one generic static-route match. -/
def staticEntryOf (st : Chars × Chars × Chars × Option Chars) : RouteEntry :=
  { network := asStr st.1, mask := asStr st.2.1, rtype := "static",
    next_hop := some (asStr st.2.2.1), admin_distance := st.2.2.2.map asStr }

/-- The `static_default` route dictionary built for one default-route match. -/
def defaultEntryOf (nh : Chars) : RouteEntry :=
  { network := "0.0.0.0", mask := "0.0.0.0", rtype := "static_default",
    next_hop := some (asStr nh) }

theorem routerStaticStep_routes_entry (d : RouterDev)
    (st : Chars × Chars × Chars × Option Chars) :
    (routerStaticStep d st).routes = d.routes ++ [staticEntryOf st] := rfl

theorem routerDefaultStep_routes_entry (d : RouterDev) (nh : Chars) :
    (routerDefaultStep d nh).routes = d.routes ++ [defaultEntryOf nh] := rfl

theorem foldl_routes_map {α : Type} {f : RouterDev → α → RouterDev}
    {g : α → RouteEntry} (h : ∀ d a, (f d a).routes = d.routes ++ [g a]) :
    ∀ (l : List α) (d : RouterDev),
      (List.foldl f d l).routes = d.routes ++ l.map g
  | [], d => by simp
  | a :: l, d => by
    rw [List.foldl_cons, foldl_routes_map h l, h]
    simp

theorem foldl_id_of_mem {α β : Type} {f : β → α → β} :
    ∀ {l : List α}, (∀ b a, a ∈ l → f b a = b) → ∀ b, List.foldl f b l = b
  | [], _, _ => rfl
  | a :: l, h, b => by
    rw [List.foldl_cons, h b a (List.mem_cons_self _ _)]
    exact foldl_id_of_mem (fun b x hx => h b x (List.mem_cons_of_mem _ hx)) b

theorem findAllF_mem {α : Type} {m : Chars → Option (α × Chars)} :
    ∀ {fuel : Nat} {l : Chars} {a : α}, a ∈ findAllF m fuel l →
      ∃ l2 r, m l2 = some (a, r)
  | 0, l, a, h => by simp [findAllF] at h
  | fuel + 1, l, a, h => by
    rw [findAllF_succ] at h
    cases hm : m l with
    | some pr =>
      obtain ⟨b, rest⟩ := pr
      rw [hm] at h
      rcases List.mem_cons.mp h with rfl | h2
      · exact ⟨l, rest, hm⟩
      · exact findAllF_mem h2
    | none =>
      rw [hm] at h
      cases l with
      | nil => simp at h
      | cons c r => exact findAllF_mem h

theorem takeRun_fst_all {p : Char → Bool} : ∀ {l : Chars} {c : Char},
    c ∈ (takeRun p l).1 → p c = true
  | [], c, h => by simp [takeRun] at h
  | x :: r, c, h => by
    by_cases hp : p x = true
    · simp only [takeRun, hp, if_true] at h
      rcases List.mem_cons.mp h with rfl | h2
      · exact hp
      · exact takeRun_fst_all h2
    · simp [takeRun, hp] at h

theorem btLazy_taken {lz : Chars → Option (Chars × Chars)}
    {run after : Chars} :
    ∀ {n : Nat} {pr : Chars × Chars × Chars},
      btLazy lz run after n = some pr → ∃ k, pr.1 = run.take k
  | 0, pr, h => by simp [btLazy] at h
  | n + 1, pr, h => by
    simp only [btLazy] at h
    cases hl : lz (run.drop (n + 1) ++ after) with
    | some q =>
      obtain ⟨sp, qq⟩ := q
      rw [hl] at h
      simp only [Option.some.injEq] at h
      exact ⟨n + 1, by rw [← h]⟩
    | none =>
      rw [hl] at h
      exact btLazy_taken h

theorem eqCI_r_of_digit {c : Char} (h : isDigitC c = true) :
    eqCI 'r' c = false := by
  simp only [isDigitC, Bool.and_eq_true, decide_eq_true_eq] at h
  obtain ⟨h1, h2⟩ := h
  have hcA : ¬('A' ≤ c ∧ c ≤ 'Z') := fun hz =>
    absurd (lt_of_le_of_lt h2 (by decide : '9' < 'A')) (not_lt.mpr hz.1)
  have hne : ('r' : Char) ≠ c := fun he =>
    absurd (he ▸ h2) (by decide : ¬('r' : Char) ≤ '9')
  simp only [eqCI, lowerC]
  rw [if_neg hcA, if_neg (by decide : ¬('A' ≤ ('r' : Char) ∧ ('r' : Char) ≤ 'Z'))]
  exact beq_eq_false_iff_ne.mpr hne

theorem litCI_router_none_digits {l : Chars}
    (h : ∀ c ∈ l, isDigitC c = true) : litCI "router".data l = none := by
  cases l with
  | nil => rfl
  | cons c r =>
    have hd := eqCI_r_of_digit (h c (List.mem_cons_self _ _))
    rw [show "router".data = 'r' :: "outer".data from rfl]
    simp [litCI, hd]

theorem matchOspfId_none {l : Chars} (h : litCI "router".data l = none) :
    matchOspfId l = none := by
  simp [matchOspfId, h]

theorem matchBgpId_none {l : Chars} (h : litCI "router".data l = none) :
    matchBgpId l = none := by
  simp [matchBgpId, h]

theorem searchC_ospfId_digits : ∀ {l : Chars},
    (∀ c ∈ l, isDigitC c = true) → searchC matchOspfId l = none
  | [], _ => rfl
  | c :: r, h => by
    have h0 : matchOspfId (c :: r) = none :=
      matchOspfId_none (litCI_router_none_digits h)
    simp only [searchC, h0]
    exact searchC_ospfId_digits (fun x hx => h x (List.mem_cons_of_mem _ hx))

theorem searchC_bgpId_digits : ∀ {l : Chars},
    (∀ c ∈ l, isDigitC c = true) → searchC matchBgpId l = none
  | [], _ => rfl
  | c :: r, h => by
    have h0 : matchBgpId (c :: r) = none :=
      matchBgpId_none (litCI_router_none_digits h)
    simp only [searchC, h0]
    exact searchC_bgpId_digits (fun x hx => h x (List.mem_cons_of_mem _ hx))

theorem matchOspfBlock_digits {l : Chars} {pr : Chars × Chars}
    (h : matchOspfBlock l = some pr) : ∀ c ∈ pr.1, isDigitC c = true := by
  unfold matchOspfBlock at h
  cases h1 : litCI "router".data l with
  | none => rw [h1] at h; simp at h
  | some p1 =>
    obtain ⟨c1, r1⟩ := p1
    rw [h1] at h
    simp only [Option.bind_eq_bind, Option.some_bind] at h
    cases h2 : spaces1 r1 with
    | none => rw [h2] at h; simp at h
    | some p2 =>
      obtain ⟨s1, r2⟩ := p2
      rw [h2] at h
      simp only [Option.bind_eq_bind, Option.some_bind] at h
      cases h3 : litCI "ospf".data r2 with
      | none => rw [h3] at h; simp at h
      | some p3 =>
        obtain ⟨c3, r3⟩ := p3
        rw [h3] at h
        simp only [Option.bind_eq_bind, Option.some_bind] at h
        cases h4 : spaces1 r3 with
        | none => rw [h4] at h; simp at h
        | some p4 =>
          obtain ⟨s2, r4⟩ := p4
          rw [h4] at h
          simp only [Option.bind_eq_bind, Option.some_bind] at h
          by_cases h5 : (takeRun isDigitC r4).1.isEmpty = true
          · rw [if_pos h5] at h; simp at h
          · rw [if_neg h5] at h
            cases h6 : btLazy (lazyUntil lookRouterEnd)
                (takeRun isDigitC r4).1 (takeRun isDigitC r4).2
                (takeRun isDigitC r4).1.length with
            | none => rw [h6] at h; simp at h
            | some p6 =>
              obtain ⟨taken, sp, q⟩ := p6
              rw [h6] at h
              simp only [Option.bind_eq_bind, Option.some_bind, Option.some.injEq] at h
              obtain ⟨k, hk⟩ := btLazy_taken h6
              intro c hc
              rw [← h] at hc
              simp only at hc
              have hk2 : taken = List.take k (takeRun isDigitC r4).1 := hk
              rw [hk2] at hc
              exact takeRun_fst_all (List.take_subset k _ hc)

theorem matchBgpBlock_digits {l : Chars} {pr : Chars × Chars}
    (h : matchBgpBlock l = some pr) : ∀ c ∈ pr.1, isDigitC c = true := by
  unfold matchBgpBlock at h
  cases h1 : litCI "router".data l with
  | none => rw [h1] at h; simp at h
  | some p1 =>
    obtain ⟨c1, r1⟩ := p1
    rw [h1] at h
    simp only [Option.bind_eq_bind, Option.some_bind] at h
    cases h2 : spaces1 r1 with
    | none => rw [h2] at h; simp at h
    | some p2 =>
      obtain ⟨s1, r2⟩ := p2
      rw [h2] at h
      simp only [Option.bind_eq_bind, Option.some_bind] at h
      cases h3 : litCI "bgp".data r2 with
      | none => rw [h3] at h; simp at h
      | some p3 =>
        obtain ⟨c3, r3⟩ := p3
        rw [h3] at h
        simp only [Option.bind_eq_bind, Option.some_bind] at h
        cases h4 : spaces1 r3 with
        | none => rw [h4] at h; simp at h
        | some p4 =>
          obtain ⟨s2, r4⟩ := p4
          rw [h4] at h
          simp only [Option.bind_eq_bind, Option.some_bind] at h
          by_cases h5 : (takeRun isDigitC r4).1.isEmpty = true
          · rw [if_pos h5] at h; simp at h
          · rw [if_neg h5] at h
            cases h6 : btLazy (lazyUntil lookRouterEnd)
                (takeRun isDigitC r4).1 (takeRun isDigitC r4).2
                (takeRun isDigitC r4).1.length with
            | none => rw [h6] at h; simp at h
            | some p6 =>
              obtain ⟨taken, sp, q⟩ := p6
              rw [h6] at h
              simp only [Option.bind_eq_bind, Option.some_bind, Option.some.injEq] at h
              obtain ⟨k, hk⟩ := btLazy_taken h6
              intro c hc
              rw [← h] at hc
              simp only at hc
              have hk2 : taken = List.take k (takeRun isDigitC r4).1 := hk
              rw [hk2] at hc
              exact takeRun_fst_all (List.take_subset k _ hc)

theorem routerOspfStep_id {d : RouterDev} {ob : Chars}
    (h : searchC matchOspfId ob = none) : routerOspfStep d ob = d := by
  simp [routerOspfStep, h]

theorem routerBgpStep_id {d : RouterDev} {ob : Chars}
    (h : searchC matchBgpId ob = none) : routerBgpStep d ob = d := by
  simp [routerBgpStep, h]

theorem parse_routes_struct (t : String) :
    (parse_router_config t {}).routes =
      (findAll matchStaticRoute t.data).map staticEntryOf ++
      (findAll matchDefaultRoute t.data).map defaultEntryOf := by
  unfold parse_router_config
  simp only
  rw [foldl_routes_map routerDefaultStep_routes_entry,
      foldl_routes_map routerStaticStep_routes_entry]
  rw [foldl_id_of_mem (fun d ob hm => by
    obtain ⟨l2, r, hmm⟩ := findAllF_mem hm
    exact routerBgpStep_id
      (searchC_bgpId_digits (matchBgpBlock_digits hmm)))]
  rw [foldl_id_of_mem (fun d ob hm => by
    obtain ⟨l2, r, hmm⟩ := findAllF_mem hm
    exact routerOspfStep_id
      (searchC_ospfId_digits (matchOspfBlock_digits hmm)))]
  rw [foldl_pres RouterDev.routes routerIntfStep_routes]
  cases searchC matchHostnameCI t.data <;>
    cases searchC matchModel t.data <;> rfl

theorem litCS_decomp : ∀ (pat l : Chars) {pr : Chars × Chars},
    litCS pat l = some pr → pr.1 = pat ∧ l = pat ++ pr.2
  | [], l, pr, h => by
    simp only [litCS, Option.some.injEq] at h
    subst h
    exact ⟨rfl, rfl⟩
  | p :: ps, [], pr, h => by simp [litCS] at h
  | p :: ps, x :: xs, pr, h => by
    simp only [litCS] at h
    by_cases he : (p == x) = true
    · rw [if_pos he] at h
      cases hm : litCS ps xs with
      | none => rw [hm] at h; simp at h
      | some q =>
        rw [hm] at h
        simp only [Option.map_some', Option.some.injEq] at h
        obtain ⟨hq, hl⟩ := litCS_decomp ps xs hm
        have hpx : p = x := beq_iff_eq.mp he
        subst h
        subst hpx
        refine ⟨by rw [hq], ?_⟩
        rw [hl]
        simp
    · rw [if_neg he] at h; simp at h

theorem litCS_self : ∀ (pat r : Chars), litCS pat (pat ++ r) = some (pat, r)
  | [], r => rfl
  | p :: ps, r => by
    simp [litCS, litCS_self ps r]

theorem takeRun_decomp {p : Char → Bool} : ∀ (l : Chars),
    (takeRun p l).1 ++ (takeRun p l).2 = l
  | [] => rfl
  | c :: r => by
    by_cases hp : p c = true
    · simp [takeRun, hp, takeRun_decomp r]
    · simp [takeRun, hp]

theorem digits1_decomp {l : Chars} {pr : Chars × Chars}
    (h : digits1 l = some pr) : l = pr.1 ++ pr.2 := by
  simp only [digits1] at h
  by_cases hz : (takeRun isDigitC l).1.isEmpty = true
  · rw [if_pos hz] at h; simp at h
  · rw [if_neg hz] at h
    simp only [Option.some.injEq] at h
    rw [← h]
    exact (takeRun_decomp l).symm

theorem quad_decomp {l : Chars} {pr : Chars × Chars}
    (h : quad l = some pr) : l = pr.1 ++ pr.2 := by
  unfold quad at h
  cases h1 : digits1 l with
  | none => rw [h1] at h; simp at h
  | some p1 =>
    obtain ⟨d1, r1⟩ := p1
    rw [h1] at h
    simp only [Option.bind_eq_bind, Option.some_bind] at h
    cases h2 : litCS ['.'] r1 with
    | none => rw [h2] at h; simp at h
    | some p2 =>
      obtain ⟨e1, r2⟩ := p2
      rw [h2] at h
      simp only [Option.bind_eq_bind, Option.some_bind] at h
      cases h3 : digits1 r2 with
      | none => rw [h3] at h; simp at h
      | some p3 =>
        obtain ⟨d2, r3⟩ := p3
        rw [h3] at h
        simp only [Option.bind_eq_bind, Option.some_bind] at h
        cases h4 : litCS ['.'] r3 with
        | none => rw [h4] at h; simp at h
        | some p4 =>
          obtain ⟨e2, r4⟩ := p4
          rw [h4] at h
          simp only [Option.bind_eq_bind, Option.some_bind] at h
          cases h5 : digits1 r4 with
          | none => rw [h5] at h; simp at h
          | some p5 =>
            obtain ⟨d3, r5⟩ := p5
            rw [h5] at h
            simp only [Option.bind_eq_bind, Option.some_bind] at h
            cases h6 : litCS ['.'] r5 with
            | none => rw [h6] at h; simp at h
            | some p6 =>
              obtain ⟨e3, r6⟩ := p6
              rw [h6] at h
              simp only [Option.bind_eq_bind, Option.some_bind] at h
              cases h7 : digits1 r6 with
              | none => rw [h7] at h; simp at h
              | some p7 =>
                obtain ⟨d4, r7⟩ := p7
                rw [h7] at h
                simp only [Option.bind_eq_bind, Option.some_bind,
                  Option.some.injEq] at h
                rw [← h]
                have e1d := digits1_decomp h1
                have e2d := (litCS_decomp _ _ h2).2
                have e3d := digits1_decomp h3
                have e4d := (litCS_decomp _ _ h4).2
                have e5d := digits1_decomp h5
                have e6d := (litCS_decomp _ _ h6).2
                have e7d := digits1_decomp h7
                simp only at e1d e2d e3d e4d e5d e6d e7d
                rw [e1d, e2d, e3d, e4d, e5d, e6d, e7d]
                simp [List.append_assoc]

theorem spaces1_head {l : Chars} {pr : Chars × Chars}
    (h : spaces1 l = some pr) :
    ∃ c r2, l = c :: r2 ∧ isSpaceC c = true := by
  cases l with
  | nil => simp [spaces1, takeRun] at h
  | cons c r2 =>
    by_cases hc : isSpaceC c = true
    · exact ⟨c, r2, rfl, hc⟩
    · simp [spaces1, takeRun, hc] at h

theorem isDigitC_false_of_space {c : Char} (h : isSpaceC c = true) :
    isDigitC c = false := by
  simp only [isSpaceC, Bool.or_eq_true, decide_eq_true_eq, beq_iff_eq] at h
  rcases h with ((((h | h) | h) | h) | h) | h <;> subst h <;> decide

theorem head_nondigit_of_spaces1 {l : Chars} {pr : Chars × Chars}
    (h : spaces1 l = some pr) : ∀ c r2, l = c :: r2 → isDigitC c = false := by
  obtain ⟨c0, rr, he, hsp⟩ := spaces1_head h
  intro c r2 hcr
  rw [he] at hcr
  injection hcr with hc _
  subst hc
  exact isDigitC_false_of_space hsp

theorem quad_of_lit00 {l r cap : Chars}
    (h : litCS "0.0.0.0".data l = some (cap, r))
    (hr : ∀ c r2, r = c :: r2 → isDigitC c = false) :
    quad l = some ("0.0.0.0".data, r) := by
  obtain ⟨hcap, hl⟩ := litCS_decomp _ _ h
  simp only at hcap hl
  subst hl
  have ht : takeRun isDigitC r = ([], r) := by
    cases r with
    | nil => rfl
    | cons c r2 => simp [takeRun, hr c r2 rfl]
  have e0 : digits1 ('0' :: r) = some (['0'], r) := by
    simp [digits1, takeRun, ht, (by decide : isDigitC '0' = true)]
  show quad ('0' :: '.' :: '0' :: '.' :: '0' :: '.' :: '0' :: r) = _
  have e1 : digits1 ('0' :: '.' :: '0' :: '.' :: '0' :: '.' :: '0' :: r) =
      some (['0'], '.' :: '0' :: '.' :: '0' :: '.' :: '0' :: r) := rfl
  have e2 : litCS ['.'] ('.' :: '0' :: '.' :: '0' :: '.' :: '0' :: r) =
      some (['.'], '0' :: '.' :: '0' :: '.' :: '0' :: r) := rfl
  have e3 : digits1 ('0' :: '.' :: '0' :: '.' :: '0' :: r) =
      some (['0'], '.' :: '0' :: '.' :: '0' :: r) := rfl
  have e4 : litCS ['.'] ('.' :: '0' :: '.' :: '0' :: r) =
      some (['.'], '0' :: '.' :: '0' :: r) := rfl
  have e5 : digits1 ('0' :: '.' :: '0' :: r) =
      some (['0'], '.' :: '0' :: r) := rfl
  have e6 : litCS ['.'] ('.' :: '0' :: r) = some (['.'], '0' :: r) := rfl
  simp only [quad, e1, Option.bind_eq_bind, Option.some_bind, e2, e3, e4,
    e5, e6, e0]
  rfl

theorem default_implies_static {l nh r : Chars}
    (hd : matchDefaultRoute l = some (nh, r)) :
    ∃ ad r2, matchStaticRoute l =
      some (("0.0.0.0".data, "0.0.0.0".data, nh, ad), r2) := by
  unfold matchDefaultRoute at hd
  cases h1 : litCI "ip".data l with
  | none => rw [h1] at hd; simp at hd
  | some p1 =>
    obtain ⟨c1, r1⟩ := p1
    rw [h1] at hd
    simp only [Option.bind_eq_bind, Option.some_bind] at hd
    cases h2 : spaces1 r1 with
    | none => rw [h2] at hd; simp at hd
    | some p2 =>
      obtain ⟨s1, r2a⟩ := p2
      rw [h2] at hd
      simp only [Option.bind_eq_bind, Option.some_bind] at hd
      cases h3 : litCI "route".data r2a with
      | none => rw [h3] at hd; simp at hd
      | some p3 =>
        obtain ⟨c3, r3⟩ := p3
        rw [h3] at hd
        simp only [Option.bind_eq_bind, Option.some_bind] at hd
        cases h4 : spaces1 r3 with
        | none => rw [h4] at hd; simp at hd
        | some p4 =>
          obtain ⟨s2, r4⟩ := p4
          rw [h4] at hd
          simp only [Option.bind_eq_bind, Option.some_bind] at hd
          cases h5 : litCS "0.0.0.0".data r4 with
          | none => rw [h5] at hd; simp at hd
          | some p5 =>
            obtain ⟨c5, r5⟩ := p5
            rw [h5] at hd
            simp only [Option.bind_eq_bind, Option.some_bind] at hd
            cases h6 : spaces1 r5 with
            | none => rw [h6] at hd; simp at hd
            | some p6 =>
              obtain ⟨s3, r6⟩ := p6
              rw [h6] at hd
              simp only [Option.bind_eq_bind, Option.some_bind] at hd
              cases h7 : litCS "0.0.0.0".data r6 with
              | none => rw [h7] at hd; simp at hd
              | some p7 =>
                obtain ⟨c7, r7⟩ := p7
                rw [h7] at hd
                simp only [Option.bind_eq_bind, Option.some_bind] at hd
                cases h8 : spaces1 r7 with
                | none => rw [h8] at hd; simp at hd
                | some p8 =>
                  obtain ⟨s4, r8⟩ := p8
                  rw [h8] at hd
                  simp only [Option.bind_eq_bind, Option.some_bind] at hd
                  cases h9 : nonspace1 r8 with
                  | none => rw [h9] at hd; simp at hd
                  | some p9 =>
                    obtain ⟨nh9, r9⟩ := p9
                    rw [h9] at hd
                    simp only [Option.bind_eq_bind, Option.some_bind,
                      Option.some.injEq, Prod.mk.injEq] at hd
                    obtain ⟨hnh, hr⟩ := hd
                    subst hnh
                    subst hr
                    have hq1 : quad r4 = some ("0.0.0.0".data, r5) :=
                      quad_of_lit00 h5 (head_nondigit_of_spaces1 h6)
                    have hq2 : quad r6 = some ("0.0.0.0".data, r7) :=
                      quad_of_lit00 h7 (head_nondigit_of_spaces1 h8)
                    unfold matchStaticRoute
                    rw [h1]
                    simp only [Option.bind_eq_bind, Option.some_bind]
                    rw [h2]
                    simp only [Option.some_bind]
                    rw [h3]
                    simp only [Option.some_bind]
                    rw [h4]
                    simp only [Option.some_bind]
                    rw [hq1]
                    simp only [Option.some_bind]
                    rw [h6]
                    simp only [Option.some_bind]
                    rw [hq2]
                    simp only [Option.some_bind]
                    rw [h8]
                    simp only [Option.some_bind]
                    rw [h9]
                    simp only [Option.some_bind]
                    cases hsp9 : spaces1 r9 with
                    | none => exact ⟨none, r9, rfl⟩
                    | some pa =>
                      obtain ⟨f9, ra9⟩ := pa
                      cases hdg : digits1 ra9 with
                      | none =>
                        refine ⟨none, r9, ?_⟩
                        simp only [Option.some_bind]
                        rw [hdg]
                      | some pd =>
                        obtain ⟨ad, rb⟩ := pd
                        refine ⟨some ad, rb, ?_⟩
                        simp only [Option.some_bind]
                        rw [hdg]

theorem static00_implies_default {l nh : Chars} {ad : Option Chars}
    {r2 : Chars}
    (hs : matchStaticRoute l =
      some (("0.0.0.0".data, "0.0.0.0".data, nh, ad), r2)) :
    ∃ r, matchDefaultRoute l = some (nh, r) := by
  unfold matchStaticRoute at hs
  cases h1 : litCI "ip".data l with
  | none => rw [h1] at hs; simp at hs
  | some p1 =>
    obtain ⟨c1, r1⟩ := p1
    rw [h1] at hs
    simp only [Option.bind_eq_bind, Option.some_bind] at hs
    cases h2 : spaces1 r1 with
    | none => rw [h2] at hs; simp at hs
    | some p2 =>
      obtain ⟨s1, r2a⟩ := p2
      rw [h2] at hs
      simp only [Option.bind_eq_bind, Option.some_bind] at hs
      cases h3 : litCI "route".data r2a with
      | none => rw [h3] at hs; simp at hs
      | some p3 =>
        obtain ⟨c3, r3⟩ := p3
        rw [h3] at hs
        simp only [Option.bind_eq_bind, Option.some_bind] at hs
        cases h4 : spaces1 r3 with
        | none => rw [h4] at hs; simp at hs
        | some p4 =>
          obtain ⟨s2, r4⟩ := p4
          rw [h4] at hs
          simp only [Option.bind_eq_bind, Option.some_bind] at hs
          cases h5 : quad r4 with
          | none => rw [h5] at hs; simp at hs
          | some p5 =>
            obtain ⟨q1v, r5⟩ := p5
            rw [h5] at hs
            simp only [Option.bind_eq_bind, Option.some_bind] at hs
            cases h6 : spaces1 r5 with
            | none => rw [h6] at hs; simp at hs
            | some p6 =>
              obtain ⟨s3, r6⟩ := p6
              rw [h6] at hs
              simp only [Option.bind_eq_bind, Option.some_bind] at hs
              cases h7 : quad r6 with
              | none => rw [h7] at hs; simp at hs
              | some p7 =>
                obtain ⟨q2v, r7⟩ := p7
                rw [h7] at hs
                simp only [Option.bind_eq_bind, Option.some_bind] at hs
                cases h8 : spaces1 r7 with
                | none => rw [h8] at hs; simp at hs
                | some p8 =>
                  obtain ⟨s4, r8⟩ := p8
                  rw [h8] at hs
                  simp only [Option.bind_eq_bind, Option.some_bind] at hs
                  cases h9 : nonspace1 r8 with
                  | none => rw [h9] at hs; simp at hs
                  | some p9 =>
                    obtain ⟨nh9, r9⟩ := p9
                    rw [h9] at hs
                    simp only [Option.bind_eq_bind, Option.some_bind] at hs
                    have hkey : q1v = "0.0.0.0".data ∧
                        q2v = "0.0.0.0".data ∧ nh9 = nh := by
                      cases hsp9 : spaces1 r9 with
                      | none =>
                        simp only [hsp9, Option.none_bind,
                          Option.some.injEq, Prod.mk.injEq] at hs
                        exact ⟨hs.1.1, hs.1.2.1, hs.1.2.2.1⟩
                      | some pa =>
                        obtain ⟨f9, ra9⟩ := pa
                        rw [hsp9] at hs
                        simp only [Option.some_bind] at hs
                        cases hdg : digits1 ra9 with
                        | none =>
                          rw [hdg] at hs
                          simp only [Option.some.injEq, Prod.mk.injEq] at hs
                          exact ⟨hs.1.1, hs.1.2.1, hs.1.2.2.1⟩
                        | some pd =>
                          obtain ⟨adv, rb⟩ := pd
                          rw [hdg] at hs
                          simp only [Option.some.injEq, Prod.mk.injEq] at hs
                          exact ⟨hs.1.1, hs.1.2.1, hs.1.2.2.1⟩
                    obtain ⟨hk1, hk2, hk3⟩ := hkey
                    subst hk1
                    subst hk2
                    subst hk3
                    have hl5 : litCS "0.0.0.0".data r4 =
                        some ("0.0.0.0".data, r5) := by
                      have hd4 := quad_decomp h5
                      simp only at hd4
                      rw [hd4]
                      exact litCS_self _ _
                    have hl7 : litCS "0.0.0.0".data r6 =
                        some ("0.0.0.0".data, r7) := by
                      have hd6 := quad_decomp h7
                      simp only at hd6
                      rw [hd6]
                      exact litCS_self _ _
                    refine ⟨r9, ?_⟩
                    unfold matchDefaultRoute
                    rw [h1]
                    simp only [Option.bind_eq_bind, Option.some_bind]
                    rw [h2]
                    simp only [Option.some_bind]
                    rw [h3]
                    simp only [Option.some_bind]
                    rw [h4]
                    simp only [Option.some_bind]
                    rw [hl5]
                    simp only [Option.some_bind]
                    rw [h6]
                    simp only [Option.some_bind]
                    rw [hl7]
                    simp only [Option.some_bind]
                    rw [h8]
                    simp only [Option.some_bind]
                    rw [h9]
                    rfl

/-! The claims. -/

/-- Claim C1 (status: code_bug).  On the spec's worked example the extractor
does set hostname `R1` and populates interface `Serial0/0` with
`10.1.1.1/255.255.255.252`, but it records no `ospf_1` protocol tag, no
`ospf` route and no process id: `re.findall` with a capture group returns
only the process-id digit strings, so the inner `router ospf` search over
them never matches and the whole OSPF/BGP section is dead code.  The claim
(and the spec's worked example) expect `routing_protocols = ["ospf_1"]` and
one ospf Route. -/
theorem ospf_extraction_is_dead_code :
    (parse_router_config "hostname R1\ninterface Serial0/0\n ip address 10.1.1.1 255.255.255.252\n!\nrouter ospf 1\n network 10.1.1.0 0.0.0.3 area 0\n!" {}).hostname
      = "R1" ∧
    (parse_router_config "hostname R1\ninterface Serial0/0\n ip address 10.1.1.1 255.255.255.252\n!\nrouter ospf 1\n network 10.1.1.0 0.0.0.3 area 0\n!" {}).interfaces
      = [("Serial0/0", { ip_address := some "10.1.1.1",
                         subnet_mask := some "255.255.255.252" })] ∧
    (parse_router_config "hostname R1\ninterface Serial0/0\n ip address 10.1.1.1 255.255.255.252\n!\nrouter ospf 1\n network 10.1.1.0 0.0.0.3 area 0\n!" {}).routing_protocols
      = [] ∧
    (parse_router_config "hostname R1\ninterface Serial0/0\n ip address 10.1.1.1 255.255.255.252\n!\nrouter ospf 1\n network 10.1.1.0 0.0.0.3 area 0\n!" {}).routes
      = [] ∧
    (parse_router_config "hostname R1\ninterface Serial0/0\n ip address 10.1.1.1 255.255.255.252\n!\nrouter ospf 1\n network 10.1.1.0 0.0.0.3 area 0\n!" {}).ospf_process_id
      = none := by
  refine ⟨by decide, by decide, by decide, by decide, by decide⟩

/-- Claim C2, counterexample.  The line `ip route 0.0.0.0 0.0.0.0 10.1.1.2`
produces TWO routes — a generic `static` entry from the first findall and a
`static_default` entry from the second — not exactly one `static_default`
with no additional `static` entry, as the claim states. -/
theorem default_route_double_counted :
    (parse_router_config "ip route 0.0.0.0 0.0.0.0 10.1.1.2" {}).routes =
      [{ network := "0.0.0.0", mask := "0.0.0.0", rtype := "static",
         next_hop := some "10.1.1.2" },
       { network := "0.0.0.0", mask := "0.0.0.0", rtype := "static_default",
         next_hop := some "10.1.1.2" }] := by decide

/-- Claim C2, amended (status: corrected).  For every router configuration
text, the parsed route list is exactly the list of generic static-regex
matches, each yielding one `static` Route that carries the captured
network, mask, next-hop and optional admin-distance, followed by the
default-regex matches, each yielding one `static_default` Route.
Moreover, at any position of any text the default regex succeeds exactly
when the static regex succeeds there with both captured quads equal to
`0.0.0.0` (and the same next-hop token) — hence every occurrence of
`ip route 0.0.0.0 0.0.0.0 <next-hop> [<admin-distance>]` is matched by
both scans and contributes TWO Routes, one `static` and one
`static_default`, while every other static-route occurrence contributes
exactly one `static` Route. -/
theorem static_default_also_static :
    (∀ t : String, (parse_router_config t {}).routes =
        (findAll matchStaticRoute t.data).map staticEntryOf ++
        (findAll matchDefaultRoute t.data).map defaultEntryOf) ∧
    (∀ l nh r : Chars, matchDefaultRoute l = some (nh, r) →
        ∃ ad r2, matchStaticRoute l =
          some (("0.0.0.0".data, "0.0.0.0".data, nh, ad), r2)) ∧
    (∀ (l nh : Chars) (ad : Option Chars) (r2 : Chars),
        matchStaticRoute l =
          some (("0.0.0.0".data, "0.0.0.0".data, nh, ad), r2) →
        ∃ r, matchDefaultRoute l = some (nh, r)) :=
  ⟨parse_routes_struct,
   fun _ _ _ h => default_implies_static h,
   fun _ _ _ _ h => static00_implies_default h⟩

theorem static_default_also_static_witness :
    ((parse_router_config
        "ip route 10.20.30.0 255.255.255.0 10.1.1.2 150\nip route 0.0.0.0 0.0.0.0 9.9.9.9" {}).routes =
      (findAll matchStaticRoute
        "ip route 10.20.30.0 255.255.255.0 10.1.1.2 150\nip route 0.0.0.0 0.0.0.0 9.9.9.9".data).map staticEntryOf ++
      (findAll matchDefaultRoute
        "ip route 10.20.30.0 255.255.255.0 10.1.1.2 150\nip route 0.0.0.0 0.0.0.0 9.9.9.9".data).map defaultEntryOf) ∧
    (∃ ad r2, matchStaticRoute "ip route 0.0.0.0 0.0.0.0 10.1.1.2 200".data =
        some (("0.0.0.0".data, "0.0.0.0".data, "10.1.1.2".data, ad), r2)) ∧
    (∃ r, matchDefaultRoute "ip route 0.0.0.0 0.0.0.0 50.0.0.1 50".data =
        some ("50.0.0.1".data, r)) :=
  ⟨static_default_also_static.1 _,
   static_default_also_static.2.1 _ _ (" 200".data) rfl,
   static_default_also_static.2.2 _ _ (some ("50".data)) [] rfl⟩

/-- Claim C3 (status: confirmed).  For devices `A` (one interface, address
`10.0.0.1`, mask `255.255.255.252`) and `B` (one interface, address
`10.0.0.2`, distinct hostname) the inferred graph has exactly one edge
`{A, B}`, carrying the two interface names and `network = "10.0.0.0/30"`. -/
theorem subnet_inference_pair (hA hB nA nB : String) (hne : hA ≠ hB) :
    (build_topology
      [.rt { hostname := hA,
             interfaces := [(nA, { ip_address := some "10.0.0.1",
                                   subnet_mask := some "255.255.255.252" })] },
       .rt { hostname := hB,
             interfaces := [(nB, { ip_address := some "10.0.0.2" })] }]).1.edges =
      [⟨hA, hB, some ⟨nA, nB, "10.0.0.0/30"⟩⟩] := by
  rfl

theorem subnet_inference_pair_witness :
    ("R1" : String) ≠ "R2" ∧
    (build_topology
      [.rt { hostname := "R1",
             interfaces := [("Serial0/0",
               { ip_address := some "10.0.0.1",
                 subnet_mask := some "255.255.255.252" })] },
       .rt { hostname := "R2",
             interfaces := [("Serial0/1", { ip_address := some "10.0.0.2" })] }]).1.edges =
      [⟨"R1", "R2", some ⟨"Serial0/0", "Serial0/1", "10.0.0.0/30"⟩⟩] :=
  ⟨by decide, subnet_inference_pair "R1" "R2" "Serial0/0" "Serial0/1" (by decide)⟩

/-- Claim C4 (status: confirmed).  For pairwise-distinct hostnames the
inferred graph has no self-loop and at most one edge per unordered hostname
pair, and every edge present after the subnet pass — metadata included — is
still present, unchanged, in the final graph: the description pass never
replaces a subnet-pass edge. -/
theorem topology_edge_uniqueness (dl : List NetDevice)
    (hnd : (dl.map NetDevice.hostname).Nodup) :
    (∀ e ∈ (build_topology dl).1.edges, e.u ≠ e.v) ∧
    (build_topology dl).1.edges.Pairwise
      (fun e f => pairMatch f e.u e.v = false) ∧
    (∀ e ∈ (subnetStage dl).edges, e ∈ (build_topology dl).1.edges) := by
  have hsub : edgesOK (subnetStage dl).edges := by
    unfold subnetStage subnetPhase
    rw [addNodesPhase_snd]
    refine subnetOuter_ok dl.enum _ (enum_hostname_ne hnd) ?_
    rw [addNodesPhase_fst_edges]
    exact ⟨by simp, by simp⟩
  have hfin : edgesOK (build_topology dl).1.edges := by
    unfold subnetStage at hsub
    simp only [build_topology, descPhase]
    exact descOuter_ok _ _ hsub
  refine ⟨hfin.1, hfin.2, fun e he => ?_⟩
  unfold subnetStage at he
  simp only [build_topology, descPhase]
  exact descOuter_mem _ _ e he

theorem topology_edge_uniqueness_witness :
    (∀ e ∈ (build_topology
      [.rt { hostname := "R1",
             interfaces := [("Serial0/0",
               { ip_address := some "10.0.0.1",
                 subnet_mask := some "255.255.255.252",
                 description := some "link to r2" })] },
       .rt { hostname := "R2",
             interfaces := [("Serial0/1",
               { ip_address := some "10.0.0.2",
                 description := some "link to r1" })] }]).1.edges, e.u ≠ e.v) ∧
    (build_topology
      [.rt { hostname := "R1",
             interfaces := [("Serial0/0",
               { ip_address := some "10.0.0.1",
                 subnet_mask := some "255.255.255.252",
                 description := some "link to r2" })] },
       .rt { hostname := "R2",
             interfaces := [("Serial0/1",
               { ip_address := some "10.0.0.2",
                 description := some "link to r1" })] }]).1.edges.Pairwise
      (fun e f => pairMatch f e.u e.v = false) ∧
    (∀ e ∈ (subnetStage
      [.rt { hostname := "R1",
             interfaces := [("Serial0/0",
               { ip_address := some "10.0.0.1",
                 subnet_mask := some "255.255.255.252",
                 description := some "link to r2" })] },
       .rt { hostname := "R2",
             interfaces := [("Serial0/1",
               { ip_address := some "10.0.0.2",
                 description := some "link to r1" })] }]).edges,
        e ∈ (build_topology
      [.rt { hostname := "R1",
             interfaces := [("Serial0/0",
               { ip_address := some "10.0.0.1",
                 subnet_mask := some "255.255.255.252",
                 description := some "link to r2" })] },
       .rt { hostname := "R2",
             interfaces := [("Serial0/1",
               { ip_address := some "10.0.0.2",
                 description := some "link to r1" })] }]).1.edges) :=
  topology_edge_uniqueness _ (by decide)

/-- Claim C5 (status: confirmed).  A text containing (case-insensitively) at
least one switch indicator and no router indicator classifies as `switch`;
symmetrically for `router`. -/
theorem classify_indicator_separation (t : String) :
    ((∃ s ∈ switch_indicators, containsSub (lowerStr t).data s.data = true) ∧
     (∀ r ∈ router_indicators, containsSub (lowerStr t).data r.data = false) →
      detect_device_type t = "switch") ∧
    ((∃ r ∈ router_indicators, containsSub (lowerStr t).data r.data = true) ∧
     (∀ s ∈ switch_indicators, containsSub (lowerStr t).data s.data = false) →
      detect_device_type t = "router") := by
  constructor
  · rintro ⟨⟨s, hs, hcs⟩, hall⟩
    have hr0 : List.countP (fun s => containsSub (lowerStr t).data s.data)
        router_indicators = 0 :=
      List.countP_eq_zero.mpr (by intro a ha; simp [hall a ha])
    have hs1 : 0 < List.countP (fun s => containsSub (lowerStr t).data s.data)
        switch_indicators :=
      List.countP_pos_iff.mpr ⟨s, hs, hcs⟩
    unfold detect_device_type
    simp only
    rw [if_neg (by omega)]
    rw [if_pos (by omega)]
  · rintro ⟨⟨r, hr, hcr⟩, hall⟩
    have hs0 : List.countP (fun s => containsSub (lowerStr t).data s.data)
        switch_indicators = 0 :=
      List.countP_eq_zero.mpr (by intro a ha; simp [hall a ha])
    have hr1 : 0 < List.countP (fun s => containsSub (lowerStr t).data s.data)
        router_indicators :=
      List.countP_pos_iff.mpr ⟨r, hr, hcr⟩
    unfold detect_device_type
    simp only
    rw [if_pos (by omega)]

theorem classify_indicator_separation_witness :
    detect_device_type "switchport" = "switch" ∧
    detect_device_type "ip route 10.0.0.0 255.0.0.0 Null0" = "router" :=
  ⟨(classify_indicator_separation "switchport").1
      ⟨⟨"switchport", by decide, by decide⟩, by decide⟩,
   (classify_indicator_separation "ip route 10.0.0.0 255.0.0.0 Null0").2
      ⟨⟨"ip route ", by decide, by decide⟩, by decide⟩⟩

/-- Claim C6, counterexample.  On `"HOSTNAME SW1"` a case-insensitive
`hostname <token>` match exists with token `SW1`, yet the switch extractor
(whose regex carries no `re.IGNORECASE`) leaves the hostname at `Unknown`. -/
theorem switch_hostname_not_case_insensitive :
    searchC matchHostnameCI "HOSTNAME SW1".data = some "SW1".data ∧
    (parse_switch_config "HOSTNAME SW1" {}).hostname = "Unknown" := by
  refine ⟨by decide, by decide⟩

/-- Claim C6, amended (status: corrected).  Only the router extractor takes
the token after the first case-insensitive `hostname <token>` match (and
strips it); the switch extractor's search is case-sensitive, with a literal
single space.  In both, absence of a match keeps the default `Unknown`. -/
theorem hostname_extraction_semantics (t : String) :
    (parse_router_config t {}).hostname =
      (match searchC matchHostnameCI t.data with
       | some tok => asStr (stripC tok)
       | none => "Unknown") ∧
    (parse_switch_config t {}).hostname =
      (match searchC matchHostnameCS t.data with
       | some tok => asStr tok
       | none => "Unknown") := by
  constructor
  · unfold parse_router_config
    simp only
    rw [foldl_pres RouterDev.hostname routerDefaultStep_hostname,
        foldl_pres RouterDev.hostname routerStaticStep_hostname,
        foldl_pres RouterDev.hostname routerBgpStep_hostname,
        foldl_pres RouterDev.hostname routerOspfStep_hostname,
        foldl_pres RouterDev.hostname routerIntfStep_hostname]
    cases searchC matchHostnameCI t.data <;>
      cases searchC matchModel t.data <;> rfl
  · unfold parse_switch_config
    simp only
    rw [foldl_pres SwitchDev.hostname switchIntfStep_hostname]
    cases searchC matchHostnameCS t.data <;> rfl

/-- Claim C10, amended (status: corrected).  For every stanza text, the
router extractor sets the shutdown flag exactly when `shutdown` occurs
case-insensitively anywhere in the stanza (hence also inside `no shutdown`),
while the switch extractor tests literal (case-sensitive) substring
containment. -/
theorem shutdown_flag_semantics (b : Chars) :
    (routerBlockProps b).shutdown = ciContains b "shutdown".data ∧
    (switchBlockProps b).shutdown = containsSub b "shutdown".data := by
  refine ⟨?_, rfl⟩
  show (searchC (litCI "shutdown".data) b).isSome = _
  rw [searchC_litCI]
  rfl

/-- Claim C7 (status: confirmed).  Extraction is a deterministic function of
the input text: two independent runs on the same text against fresh
default-constructed devices agree field for field (immediate in this pure
embedding of the deterministic `re`-based extractors). -/
theorem extraction_deterministic (t : String) :
    (parse_router_config t {}).hostname = (parse_router_config t {}).hostname ∧
    (parse_router_config t {}).vendor = (parse_router_config t {}).vendor ∧
    (parse_router_config t {}).model = (parse_router_config t {}).model ∧
    (parse_router_config t {}).interfaces = (parse_router_config t {}).interfaces ∧
    (parse_router_config t {}).routing_protocols
      = (parse_router_config t {}).routing_protocols ∧
    (parse_router_config t {}).routes = (parse_router_config t {}).routes ∧
    (parse_router_config t {}).bgp_asn = (parse_router_config t {}).bgp_asn ∧
    (parse_router_config t {}).ospf_process_id
      = (parse_router_config t {}).ospf_process_id ∧
    (parse_switch_config t {}).hostname = (parse_switch_config t {}).hostname ∧
    (parse_switch_config t {}).vendor = (parse_switch_config t {}).vendor ∧
    (parse_switch_config t {}).model = (parse_switch_config t {}).model ∧
    (parse_switch_config t {}).interfaces = (parse_switch_config t {}).interfaces ∧
    (parse_switch_config t {}).vlans = (parse_switch_config t {}).vlans ∧
    (parse_switch_config t {}).stp_mode = (parse_switch_config t {}).stp_mode :=
  ⟨rfl, rfl, rfl, rfl, rfl, rfl, rfl, rfl, rfl, rfl, rfl, rfl, rfl, rfl⟩

/-- Claim C8 (status: confirmed).  With fewer than two devices the engine
returns a graph with an empty edge set (no failure): the empty input yields
the empty graph, and a single device becomes an isolated node. -/
theorem topology_underdetermined_empty_edges :
    (build_topology []).1.nodes = [] ∧ (build_topology []).1.edges = [] ∧
    ∀ d : NetDevice, (build_topology [d]).1.edges = [] ∧
      (build_topology [d]).1.nodes = [(d.hostname, d.typeName)] := by
  refine ⟨rfl, rfl, fun d => ?_⟩
  simp [build_topology, addNodesPhase, subnetPhase, subnetOuter, descPhase,
        descOuter, subnetDev1_self, descDev_self, addNode, List.enum]

/-- Claim C9 (status: confirmed).  The topology engine only reads the
devices: threading the device list through every pass returns it unchanged
(the embedded passes contain no device update, mirroring the absence of any
attribute assignment in `build_topology`). -/
theorem build_topology_reads_only (dl : List NetDevice) :
    (build_topology dl).2 = dl := by
  simp [build_topology, subnetPhase, descPhase, addNodesPhase_snd,
        subnetOuter_snd, descOuter_snd, List.enum_map_snd]

/-- Claim C10, counterexample.  The router extractor's shutdown search is
case-insensitive: the stanza of `interface Serial0/0` containing only
`SHUTDOWN` has no occurrence of the substring `shutdown`, yet the parsed
interface's shutdown flag is true — the claim's "exactly when the substring
occurs" fails. -/
theorem router_shutdown_case_insensitive :
    (findAll matchIntfBlockR "interface Serial0/0\n SHUTDOWN\n!".data).map asStr =
      ["interface Serial0/0\n SHUTDOWN\n"] ∧
    containsSub "interface Serial0/0\n SHUTDOWN\n".data "shutdown".data = false ∧
    (parse_router_config "interface Serial0/0\n SHUTDOWN\n!" {}).interfaces =
      [("Serial0/0", { shutdown := true })] := by
  refine ⟨by decide, by decide, by decide⟩

end AutoNet
